import Mathlib

/-!
Verification of the bid-aggregator ingestion/dedup/notification core.

Shallow embedding of `src/bid_aggregator` (Python) into Lean 4:
  * `core/database.py`  — string canonicalization, content hashing, `upsert_item`
    over an explicit list-of-rows model of the `items` table;
  * `ingest/normalizer.py` — record normalization and the batch partition
    contract;
  * `ingest/full_ingest.py` — date-range chunking (`date_range_generator`,
    `estimate_chunks`), dates modelled as day ordinals;
  * `ingest/kkj_client.py`, `ingest/pportal_client.py` — the retry behaviour of
    the outbound request paths, with the network modelled as a function from
    request index to attempt outcome;
  * `core/saved_search_db.py`, `notify/runner.py` — the saved-search diff engine
    and the notification dispatcher over an explicit relational state.

Python `str | None` fields become `Option String`; Python truthiness of such a
field (`if x:`) is `truthy` below.  `datetime` values are carried as their ISO
strings (the pipeline only ever parses and re-serialises them).  SQLite tables
become lists of row structures in insertion order; `AUTOINCREMENT` ids are
`max id + 1`.
-/

namespace BidAggregator

/-- Python truthiness of an `Optional[str]`: `None` and `""` are falsy. -/
def truthy : Option String → Bool
  | none => false
  | some s => s ≠ ""

/-! ## Canonicalizer (`core/database.py`, `normalize_string` / `escape_pipe`) -/

/-- The whitespace characters `str.split()` / `str.strip()` act on (the ASCII
whitespace set; the only non-ASCII whitespace the pipeline meets, U+3000, is
mapped to U+0020 by NFKC before splitting). -/
def isPySpace (c : Char) : Bool :=
  c == ' ' || c == '\t' || c == '\n' || c == '\x0d' || c == '\x0b' || c == '\x0c'

/-- Modelled from the Python stdlib call `unicodedata.normalize("NFKC", s)`,
restricted to the width/compatibility variants relevant to this pipeline:
fullwidth ASCII forms U+FF01..U+FF5E map to U+0021..U+007E and the ideographic
space U+3000 maps to U+0020; every other character is left unchanged. -/
def nfkcChar (c : Char) : Char :=
  if c.toNat == 0x3000 then ' '
  else if 0xFF01 ≤ c.toNat && c.toNat ≤ 0xFF5E then Char.ofNat (c.toNat - 0xFF01 + 0x21)
  else c

def nfkcStr (s : String) : String := String.mk (s.data.map nfkcChar)

/-- `str.split()` with no separator: split on runs of whitespace, no empty
tokens.  `acc` holds the current word, reversed. -/
def pySplitGo : List Char → List Char → List (List Char)
  | [], acc => if acc.isEmpty then [] else [acc.reverse]
  | c :: cs, acc =>
    if isPySpace c then
      if acc.isEmpty then pySplitGo cs [] else acc.reverse :: pySplitGo cs []
    else pySplitGo cs (c :: acc)

def pySplit (s : String) : List String := (pySplitGo s.data []).map String.mk

/-- `str.strip()`: drop leading and trailing whitespace. -/
def pyStrip (s : String) : String :=
  String.mk (((s.data.dropWhile isPySpace).reverse.dropWhile isPySpace).reverse)

/-- `normalize_string` (database.py): NFKC, collapse whitespace runs to one
space, trim.  `None` yields the empty string. -/
def normalize_string (s : Option String) : String :=
  match s with
  | none => ""
  | some s => pyStrip (" ".intercalate (pySplit (nfkcStr s)))

/-- One character of `escape_pipe`: the sequential
`s.replace("\\", "\\\\").replace("|", "\\|")` doubles every backslash and then
prefixes every pipe (all pipes of the intermediate string are original pipes,
since the first pass only produces backslashes), so it acts independently on
each character. -/
def escapeChar (c : Char) : List Char :=
  if c == '\\' then ['\\', '\\'] else if c == '|' then ['\\', '|'] else [c]

/-- `escape_pipe` (database.py): escape backslashes, then pipes. -/
def escape_pipe (s : String) : String :=
  String.mk (s.data.flatMap escapeChar)

/-! ## SHA-256 (`hashlib.sha256(...).hexdigest()`), over byte lists, 32-bit
words as `Nat` reduced mod `2 ^ 32`. -/

def w32 (n : Nat) : Nat := n % 4294967296

def rotr (n x : Nat) : Nat := w32 ((x >>> n) ||| (x <<< (32 - n)))

def bsig0 (x : Nat) : Nat := rotr 2 x ^^^ rotr 13 x ^^^ rotr 22 x
def bsig1 (x : Nat) : Nat := rotr 6 x ^^^ rotr 11 x ^^^ rotr 25 x
def ssig0 (x : Nat) : Nat := rotr 7 x ^^^ rotr 18 x ^^^ (x >>> 3)
def ssig1 (x : Nat) : Nat := rotr 17 x ^^^ rotr 19 x ^^^ (x >>> 10)

def sha256K : List Nat :=
  [1116352408, 1899447441, 3049323471, 3921009573, 961987163, 1508970993,
   2453635748, 2870763221, 3624381080, 310598401, 607225278, 1426881987,
   1925078388, 2162078206, 2614888103, 3248222580, 3835390401, 4022224774,
   264347078, 604807628, 770255983, 1249150122, 1555081692, 1996064986,
   2554220882, 2821834349, 2952996808, 3210313671, 3336571891, 3584528711,
   113926993, 338241895, 666307205, 773529912, 1294757372, 1396182291,
   1695183700, 1986661051, 2177026350, 2456956037, 2730485921, 2820302411,
   3259730800, 3345764771, 3516065817, 3600352804, 4094571909, 275423344,
   430227734, 506948616, 659060556, 883997877, 958139571, 1322822218,
   1537002063, 1747873779, 1955562222, 2024104815, 2227730452, 2361852424,
   2428436474, 2756734187, 3204031479, 3329325298]

def sha256H0 : List Nat :=
  [1779033703, 3144134277, 1013904242, 2773480762,
   1359893119, 2600822924, 528734635, 1541459225]

/-- Append `0x80`, zero bytes to 56 mod 64, then the bit length, 8 bytes
big-endian. -/
def sha256Pad (msg : List Nat) : List Nat :=
  let bitLen := msg.length * 8
  let zeros := (120 - (msg.length + 1) % 64) % 64
  msg ++ 0x80 :: List.replicate zeros 0 ++
    (List.range 8).map (fun i => (bitLen >>> ((7 - i) * 8)) % 256)

def bytesToWords : List Nat → List Nat
  | b0 :: b1 :: b2 :: b3 :: rest => (((b0 * 256 + b1) * 256 + b2) * 256 + b3) :: bytesToWords rest
  | _ => []

def blocksOf64 (l : List Nat) : List (List Nat) :=
  (l.foldl
    (fun acc b =>
      if acc.2.length == 63 then (acc.1 ++ [acc.2 ++ [b]], ([] : List Nat))
      else (acc.1, acc.2 ++ [b]))
    ([], [])).1

def sha256Schedule (block : List Nat) : List Nat :=
  (List.range 48).foldl
    (fun w _ =>
      let n := w.length
      w ++ [w32 (ssig1 (w.getD (n - 2) 0) + w.getD (n - 7) 0 +
                 ssig0 (w.getD (n - 15) 0) + w.getD (n - 16) 0)])
    (bytesToWords block)

def sha256Round (st : List Nat) (kw : Nat × Nat) : List Nat :=
  match st with
  | [a, b, c, d, e, f, g, h] =>
    let ch := (e &&& f) ^^^ ((e ^^^ 0xffffffff) &&& g)
    let maj := (a &&& b) ^^^ (a &&& c) ^^^ (b &&& c)
    let t1 := w32 (h + bsig1 e + ch + kw.1 + kw.2)
    let t2 := w32 (bsig0 a + maj)
    [w32 (t1 + t2), a, b, c, w32 (d + t1), e, f, g]
  | st => st

def sha256Compress (h : List Nat) (block : List Nat) : List Nat :=
  let st := (sha256K.zip (sha256Schedule block)).foldl sha256Round h
  (h.zip st).map (fun p => w32 (p.1 + p.2))

def hexDigit (n : Nat) : Char :=
  if n < 10 then Char.ofNat (48 + n) else Char.ofNat (87 + n)

def wordToHex (w : Nat) : String :=
  String.mk ((List.range 8).map (fun i => hexDigit ((w >>> ((7 - i) * 4)) &&& 15)))

/-- UTF-8 encoding of one character (models Python's `str.encode("utf-8")`). -/
def utf8Char (c : Char) : List Nat :=
  let n := c.toNat
  if n < 0x80 then [n]
  else if n < 0x800 then [0xC0 ||| (n >>> 6), 0x80 ||| (n &&& 0x3F)]
  else if n < 0x10000 then
    [0xE0 ||| (n >>> 12), 0x80 ||| ((n >>> 6) &&& 0x3F), 0x80 ||| (n &&& 0x3F)]
  else
    [0xF0 ||| (n >>> 18), 0x80 ||| ((n >>> 12) &&& 0x3F),
     0x80 ||| ((n >>> 6) &&& 0x3F), 0x80 ||| (n &&& 0x3F)]

def utf8Bytes (s : String) : List Nat := s.data.flatMap utf8Char

def sha256Hex (msg : List Nat) : String :=
  String.join (((blocksOf64 (sha256Pad msg)).foldl sha256Compress sha256H0).map wordToHex)

/-! ## Content hashing (`core/database.py`) -/

/-- The pipe-delimited field list `generate_content_hash` joins: the normalized
source item id is prepended only when the raw id is truthy. -/
def contentParts (title organization_name : String)
    (published_at deadline_at url source_item_id : Option String) : List String :=
  (if truthy source_item_id then [escape_pipe (normalize_string source_item_id)] else []) ++
  [escape_pipe (normalize_string (some title)),
   escape_pipe (normalize_string (some organization_name)),
   escape_pipe (normalize_string published_at),
   escape_pipe (normalize_string deadline_at),
   escape_pipe (normalize_string url)]

/-- `generate_content_hash` (database.py lines 205-225). -/
def generate_content_hash (title organization_name : String)
    (published_at deadline_at url source_item_id : Option String) : String :=
  sha256Hex (utf8Bytes
    ("|".intercalate (contentParts title organization_name published_at deadline_at url
      source_item_id)))

/-- `generate_body_hash` (database.py lines 228-233): `None` for an absent or
empty body. -/
def generate_body_hash (body : Option String) : Option String :=
  match body with
  | none => none
  | some b => if b = "" then none else some (sha256Hex (utf8Bytes (normalize_string (some b))))

/-- `generate_dedupe_key` (notify/sender.py lines 277-285). -/
def generate_dedupe_key (saved_search_id run_id : Nat) (channel recipient : String) : String :=
  sha256Hex (utf8Bytes
    (toString saved_search_id ++ ":" ++ toString run_id ++ ":" ++ channel ++ ":" ++ recipient))

/-! ## The `items` table and `upsert_item` (`core/database.py`)

A row of `items`; `datetime` columns are carried as the ISO strings the code
stores in them.  `source_item_id`/`url` are nullable; `created_at`/`updated_at`
are `NOT NULL`. -/

structure Item where
  id : Option Nat
  source : String
  source_item_id : Option String
  url : Option String
  title : String
  organization_name : String
  published_at : Option String
  deadline_at : Option String
  category : Option String
  region : Option String
  body : Option String
  body_hash : Option String
  content_hash : String
  created_at : Option String
  updated_at : Option String
deriving Repr, DecidableEq

structure ItemRow where
  id : Nat
  source : String
  source_item_id : Option String
  url : Option String
  title : String
  organization_name : String
  published_at : Option String
  deadline_at : Option String
  category : Option String
  region : Option String
  body : Option String
  body_hash : Option String
  content_hash : String
  created_at : String
  updated_at : String
deriving Repr, DecidableEq

/-- `SELECT id FROM items WHERE source = ? AND source_item_id = ?` — first row
in rowid (insertion) order; the parameter is the item's (truthy, hence
non-empty) source item id, so `NULL` rows never match. -/
def findBySourceItemId (source sid : String) (db : List ItemRow) : Option Nat :=
  (db.find? (fun r => r.source == source && r.source_item_id == some sid)).map (fun r => r.id)

/-- `SELECT id FROM items WHERE url = ?`. -/
def findByUrl (url : String) (db : List ItemRow) : Option Nat :=
  (db.find? (fun r => r.url == some url)).map (fun r => r.id)

/-- `SELECT id FROM items WHERE content_hash = ?`. -/
def findByContentHash (h : String) (db : List ItemRow) : Option Nat :=
  (db.find? (fun r => r.content_hash == h)).map (fun r => r.id)

/-- The identity-resolution cascade of `upsert_item` (database.py lines
301-329): source-native id when truthy, else URL when truthy, else content
hash. -/
def resolveExisting (item : Item) (db : List ItemRow) : Option Nat :=
  let e1 :=
    if truthy item.source_item_id then
      findBySourceItemId item.source (item.source_item_id.getD "") db
    else none
  let e2 :=
    match e1 with
    | some i => some i
    | none => if truthy item.url then findByUrl (item.url.getD "") db else none
  match e2 with
  | some i => some i
  | none => findByContentHash item.content_hash db

/-- The `UPDATE items SET ...` of `upsert_item` (lines 333-365): every mutable
field and `updated_at` are overwritten; `id`, `source` and `created_at` are
not touched. -/
def updateRow (r : ItemRow) (item : Item) (now : String) : ItemRow :=
  { r with
    source_item_id := item.source_item_id
    url := item.url
    title := item.title
    organization_name := item.organization_name
    published_at := item.published_at
    deadline_at := item.deadline_at
    category := item.category
    region := item.region
    body := item.body
    body_hash := item.body_hash
    content_hash := item.content_hash
    updated_at := now }

/-- The `INSERT INTO items ...` of `upsert_item` (lines 370-394):
`created_at = updated_at = now`. -/
def insertRow (nid : Nat) (item : Item) (now : String) : ItemRow :=
  ⟨nid, item.source, item.source_item_id, item.url, item.title, item.organization_name,
   item.published_at, item.deadline_at, item.category, item.region, item.body,
   item.body_hash, item.content_hash, now, now⟩

/-- `AUTOINCREMENT` with no deletions: one more than the largest id ever used.
All ids are ≥ 1, so Python's final `if existing_id:` truthiness test is
equivalent to the `is None` checks of the cascade. -/
def nextItemId (db : List ItemRow) : Nat := db.foldr (fun r m => max r.id m) 0 + 1

/-- `upsert_item` (database.py lines 291-396): returns `(item_id, is_new)` and
the new table state. -/
def upsert_item (item : Item) (now : String) (db : List ItemRow) :
    Nat × Bool × List ItemRow :=
  match resolveExisting item db with
  | some eid => (eid, false, db.map (fun r => if r.id == eid then updateRow r item now else r))
  | none => (nextItemId db, true, db ++ [insertRow (nextItemId db) item now])

/-- The partial unique index `idx_items_url ... WHERE url IS NOT NULL` (DDL
lines 61-62): a row participates exactly when its `url` column is not NULL —
the empty string is not NULL. -/
def urlInUniqueIndex (r : ItemRow) : Bool := r.url.isSome

/-! ## Date-range chunking (`ingest/full_ingest.py`)

Dates are modelled as day ordinals: `strptime`/`strftime` is a bijection
between `YYYY-MM-DD` strings and days, and `timedelta(days=k)` is `+ k`.  The
`while current <= end` loop of `date_range_generator` is given `end + 1 -
start` iterations of fuel, which suffices whenever `days_per_chunk ≥ 1` (for
`days_per_chunk = 0` the Python generator never terminates). -/

def dateRangeGo (e d : Nat) : Nat → Nat → List (Nat × Nat)
  | 0, _ => []
  | fuel + 1, current =>
    if current ≤ e then
      (current, min (current + d - 1) e) :: dateRangeGo e d fuel (min (current + d - 1) e + 1)
    else []

/-- `date_range_generator` (full_ingest.py lines 24-47). -/
def date_range_generator (start e d : Nat) : List (Nat × Nat) :=
  dateRangeGo e d (e + 1 - start) start

/-- `estimate_chunks` (full_ingest.py lines 237-246):
`ceil(total_days / days_per_chunk)` via `(total_days + d - 1) // d`. -/
def estimate_chunks (start e d : Nat) : Nat := ((e - start + 1) + d - 1) / d

/-! ## Normalizer (`ingest/normalizer.py`) -/

structure KKJAttachment where
  name : Option String
  uri : Option String
deriving Repr, DecidableEq

/-- `KKJSearchResult` (core/models.py lines 156-181). -/
structure KKJSearchResult where
  result_id : Nat
  key : String
  external_document_uri : Option String
  project_name : String
  date : Option String
  file_type : Option String
  file_size : Option Nat
  lg_code : Option String
  prefecture_name : Option String
  city_code : Option String
  city_name : Option String
  organization_name : Option String
  certification : Option String
  cft_issue_date : Option String
  period_end_time : Option String
  category : Option String
  procedure_type : Option String
  location : Option String
  tender_submission_deadline : Option String
  opening_tenders_event : Option String
  item_code : Option String
  project_description : Option String
  attachments : List KKJAttachment
deriving Repr, DecidableEq

/-- `PPortalSearchResult` (ingest/pportal_client.py lines 29-43). -/
structure PPortalSearchResult where
  case_number : String
  title : String
  organization : String
  category : String
  classification : String
  publish_start : Option String
  publish_end : Option String
  detail_url : Option String
deriving Repr, DecidableEq

structure NormalizationError where
  message : String
  source_key : Option String
deriving Repr, DecidableEq

/-- A ten-character `YYYY-MM-DD` digit/dash shape. -/
def isDateShape : List Char → Bool
  | [y1, y2, y3, y4, h1, m1, m2, h2, d1, d2] =>
    y1.isDigit && y2.isDigit && y3.isDigit && y4.isDigit && h1 == '-' &&
    m1.isDigit && m2.isDigit && h2 == '-' && d1.isDigit && d2.isDigit
  | _ => false

/-- `parse_iso8601_date` (normalizer.py lines 24-42).  Modelled from the
stdlib parsers it delegates to: absent/empty input is `None`;
`datetime.fromisoformat` accepts a `YYYY-MM-DD` prefix with an optional time
suffix and the `strptime("%Y-%m-%d")` fallback the date-only form — both are
approximated by checking the ten-character date shape of the prefix; an
unparsable string is logged and yields `None` (never an error).  The parsed
`datetime` is represented by the accepted string. -/
def parse_iso8601_date (s : Option String) : Option String :=
  match s with
  | none => none
  | some str =>
    if str == "" then none
    else if isDateShape (str.data.take 10) then some str else none

/-- `normalize_kkj_result` (normalizer.py lines 45-99): fails exactly when the
mandatory `project_name` is empty; a falsy organization name becomes the
sentinel `不明`; region joins the truthy prefecture/city parts. -/
def normalize_kkj_result (r : KKJSearchResult) (source : String) :
    Except NormalizationError Item :=
  if r.project_name == "" then
    .error ⟨"project_name（件名）が空です", some r.key⟩
  else
    let organization_name := if truthy r.organization_name then r.organization_name.getD "" else "不明"
    let published_at := parse_iso8601_date r.cft_issue_date
    let deadline_at := parse_iso8601_date r.period_end_time
    let region_parts :=
      (if truthy r.prefecture_name then [r.prefecture_name.getD ""] else []) ++
      (if truthy r.city_name then [r.city_name.getD ""] else [])
    let region := if region_parts.isEmpty then none else some (" ".intercalate region_parts)
    let content_hash := generate_content_hash r.project_name organization_name
      r.cft_issue_date r.period_end_time r.external_document_uri (some r.key)
    let body_hash := generate_body_hash r.project_description
    .ok ⟨none, source, some r.key, r.external_document_uri, r.project_name, organization_name,
         published_at, deadline_at, r.category, region, r.project_description, body_hash,
         content_hash, none, none⟩

/-- `normalize_kkj_results` (normalizer.py lines 102-123): best-effort loop,
each record appended to exactly one of the two output lists. -/
def normalize_kkj_results (rs : List KKJSearchResult) (source : String) :
    List Item × List (KKJSearchResult × NormalizationError) :=
  rs.foldl
    (fun acc r =>
      match normalize_kkj_result r source with
      | .ok item => (acc.1 ++ [item], acc.2)
      | .error e => (acc.1, acc.2 ++ [(r, e)]))
    ([], [])

/-- `normalize_pportal_result` (normalizer.py lines 130-181).  The Python
`isinstance` guard is vacuous in the typed embedding.  Fails exactly when
`title` is empty; `url` is `result.detail_url or ""`, so always a string;
`body` is the empty string and `body_hash` therefore `None`. -/
def normalize_pportal_result (r : PPortalSearchResult) (source : String) :
    Except NormalizationError Item :=
  if r.title == "" then
    .error ⟨"title（案件名称）が空です", some r.case_number⟩
  else
    let organization := if r.organization == "" then "不明" else r.organization
    let published_at := if truthy r.publish_start then parse_iso8601_date r.publish_start else none
    let deadline_at := if truthy r.publish_end then parse_iso8601_date r.publish_end else none
    let content_hash := generate_content_hash r.title organization
      r.publish_start r.publish_end r.detail_url (some r.case_number)
    let body_hash := generate_body_hash (some "")
    .ok ⟨none, source, some r.case_number, some (r.detail_url.getD ""), r.title, organization,
         published_at, deadline_at, some r.category, none, some "", body_hash,
         content_hash, none, none⟩

/-- `normalize_pportal_results` (normalizer.py lines 184-205). -/
def normalize_pportal_results (rs : List PPortalSearchResult) (source : String) :
    List Item × List (PPortalSearchResult × NormalizationError) :=
  rs.foldl
    (fun acc r =>
      match normalize_pportal_result r source with
      | .ok item => (acc.1 ++ [item], acc.2)
      | .error e => (acc.1, acc.2 ++ [(r, e)]))
    ([], [])

/-! ## Source clients (`ingest/kkj_client.py`, `ingest/pportal_client.py`)

The network is a function from request index to outcome; the parsed shape of a
response body stands in for the raw XML/HTML (`ET.fromstring` /
`BeautifulSoup` are external).  Rate-limit sleeps and backoff waits are real
time and are not modelled; only which requests are issued and what surfaces. -/

/-- The parse-relevant shape of a KKJ response body: malformed XML, an
embedded `<e>` error element, or a results document. -/
inductive KKJBody where
  | malformed (msg : String)
  | errorElem (text : String)
  | results (version : String) (search_hits : Nat) (items : List KKJSearchResult)
deriving Repr, DecidableEq

structure KKJAPIResponse where
  version : String
  search_hits : Nat
  results : List KKJSearchResult
deriving Repr, DecidableEq

/-- What one `_fetch` attempt can surface: an `httpx` transport failure or a
`KKJAPIError` (carrying the status for HTTP ≥ 400, none for parse/API
errors). -/
inductive KKJFailure where
  | transport (msg : String)
  | api (msg : String) (status_code : Option Nat)
deriving Repr, DecidableEq

/-- The outcome of one HTTP request. -/
inductive HttpOutcome where
  | transportError (msg : String)
  | response (status : Nat) (body : KKJBody) (content_type : String)
deriving Repr, DecidableEq

/-- One un-retried `_fetch` attempt (kkj_client.py lines 188-212): a transport
failure raises; a status ≥ 400 raises `KKJAPIError` with the status; otherwise
the body, status and content type are returned. -/
def kkjFetchOnce : HttpOutcome → Except KKJFailure (KKJBody × Nat × String)
  | .transportError m => .error (.transport m)
  | .response status body ct =>
    if status ≥ 400 then .error (.api "HTTP error" (some status)) else .ok (body, status, ct)

/-- The tenacity wrapper on `_fetch` (kkj_client.py lines 183-187):
`stop_after_attempt(3)`, `reraise=True`, and the DEFAULT retry predicate,
which retries on ANY exception raised by the attempt.  `left` is the number of
attempts remaining after the current one, `idx` the index of the next request;
the result carries how many requests were issued in total. -/
def retryFetch (env : Nat → HttpOutcome) :
    Nat → Nat → Except KKJFailure (KKJBody × Nat × String) × Nat
  | 0, idx => (kkjFetchOnce (env idx), idx + 1)
  | left + 1, idx =>
    match kkjFetchOnce (env idx) with
    | .ok v => (.ok v, idx + 1)
    | .error _ => retryFetch env left (idx + 1)

/-- `_fetch` as called: up to 3 attempts. -/
def kkjFetch (env : Nat → HttpOutcome) : Except KKJFailure (KKJBody × Nat × String) × Nat :=
  retryFetch env 2 0

/-- `_parse_xml_response` (kkj_client.py lines 102-133): malformed XML and an
embedded error element are fatal `KKJAPIError`s without a status code. -/
def parse_xml_response : KKJBody → Except KKJFailure KKJAPIResponse
  | .malformed m => .error (.api ("XMLパースエラー: " ++ m) none)
  | .errorElem t => .error (.api ("API エラー: " ++ t) none)
  | .results v hits items => .ok ⟨v, hits, items⟩

/-- `KKJClient.search` (kkj_client.py lines 214-224): retried fetch, then the
parse (outside the retry wrapper). -/
def kkjSearch (env : Nat → HttpOutcome) :
    Except KKJFailure (KKJAPIResponse × KKJBody × Nat × String) × Nat :=
  match kkjFetch env with
  | (.error e, n) => (.error e, n)
  | (.ok (body, st, ct), n) =>
    match parse_xml_response body with
    | .error e => (.error e, n)
    | .ok resp => (.ok (resp, body, st, ct), n)

/-- The outcome of one pportal POST: the parsed rows and total stand in for
the HTML document. -/
inductive PPortalHttp where
  | transportError (msg : String)
  | response (status : Nat) (rows : List PPortalSearchResult) (total : Nat)
deriving Repr, DecidableEq

inductive PPortalFailure where
  | transport (msg : String)
  | api (msg : String)
deriving Repr, DecidableEq

/-- One search POST of `PPortalClient.search` (pportal_client.py lines
214-251): a non-200 status raises `PPortalAPIError`; otherwise the parsed
rows and total are returned. -/
def pportalSearchOnce : PPortalHttp → Except PPortalFailure (List PPortalSearchResult × Nat)
  | .transportError m => .error (.transport m)
  | .response status rows total =>
    if status ≠ 200 then .error (.api "検索エラー") else .ok (rows, total)

/-- `PPortalClient.search` issues its POST exactly once: no retry decorator or
loop wraps it (pportal_client.py lines 191-251), so any failure — transport
included — surfaces immediately and exactly one request is made. -/
def pportalSearch (env : Nat → PPortalHttp) :
    Except PPortalFailure (List PPortalSearchResult × Nat) × Nat :=
  (pportalSearchOnce (env 0), 1)

/-! ## Saved-search state (`core/saved_search_db.py`) and the runner
(`notify/runner.py`)

`saved_search_runs`, `saved_search_hits` and `saved_search_notifications` as
lists of rows in insertion order.  Surrogate keys of hit and notification rows
are carried by position (nothing reads them); run rows keep their id because
hits reference it. -/

structure RunRow where
  id : Nat
  saved_search_id : Nat
  run_at : String
  hit_count : Nat
  status : String
  error_message : Option String
  notified_channels : Option (List String)
  notify_status : Option String
  notify_error : Option String
deriving Repr, DecidableEq

structure HitRow where
  saved_search_run_id : Nat
  item_id : Option Nat
  content_hash : String
  matched_at : String
  notified_at : Option String
deriving Repr, DecidableEq

structure NotificationRow where
  saved_search_run_id : Nat
  channel : String
  recipient : String
  status : String
  attempt_count : Nat
  last_attempt_at : String
  error_message : Option String
  dedupe_key : String
deriving Repr, DecidableEq

structure SearchDB where
  runs : List RunRow
  hits : List HitRow
  notifications : List NotificationRow
deriving Repr, DecidableEq

def nextRunId (db : SearchDB) : Nat := db.runs.foldr (fun r m => max r.id m) 0 + 1

/-- `create_saved_search_run` (saved_search_db.py lines 121-143): a new row in
`running` status with `hit_count = 0`. -/
def create_saved_search_run (db : SearchDB) (saved_search_id : Nat) (now : String) : SearchDB :=
  { db with runs := db.runs ++
      [⟨nextRunId db, saved_search_id, now, 0, "running", none, none, none, none⟩] }

/-- `update_saved_search_run` (saved_search_db.py lines 146-178). -/
def update_saved_search_run (db : SearchDB) (run_id hit_count : Nat) (status : String)
    (error_message : Option String) (notified_channels : Option (List String))
    (notify_status notify_error : Option String) : SearchDB :=
  { db with runs := db.runs.map (fun r =>
      if r.id == run_id then
        { r with
          hit_count := hit_count
          status := status
          error_message := error_message
          notified_channels := notified_channels
          notify_status := notify_status
          notify_error := notify_error }
      else r) }

/-- `create_saved_search_hit` (saved_search_db.py lines 203-220). -/
def create_saved_search_hit (db : SearchDB) (run_id item_id : Nat) (content_hash now : String) :
    SearchDB :=
  { db with hits := db.hits ++ [⟨run_id, some item_id, content_hash, now, none⟩] }

/-- `get_previous_hit_item_ids` (saved_search_db.py lines 223-235): the
distinct non-NULL `item_id`s of hits joined to any run of the saved search —
with NO condition on the run's status.  Python returns a set; the list's
membership is what the caller tests. -/
def get_previous_hit_item_ids (db : SearchDB) (saved_search_id : Nat) : List Nat :=
  db.hits.filterMap (fun h =>
    match h.item_id with
    | some iid =>
      if db.runs.any (fun r => r.id == h.saved_search_run_id &&
          r.saved_search_id == saved_search_id) then some iid else none
    | none => none)

/-- `mark_hits_notified` (saved_search_db.py lines 238-246). -/
def mark_hits_notified (db : SearchDB) (run_id : Nat) (now : String) : SearchDB :=
  { db with hits := db.hits.map (fun h =>
      if h.saved_search_run_id == run_id then { h with notified_at := some now } else h) }

/-- `create_notification` (saved_search_db.py lines 254-274): inserts with
`attempt_count = 1`. -/
def create_notification (db : SearchDB) (run_id : Nat) (channel recipient status : String)
    (dedupe_key : String) (error_message : Option String) (now : String) : SearchDB :=
  { db with notifications := db.notifications ++
      [⟨run_id, channel, recipient, status, 1, now, error_message, dedupe_key⟩] }

/-- `NotifyConfig` (core/models.py lines 125-132) as the runner reads it. -/
structure NotifyConfig where
  channel : String
  recipients : List String
  max_items : Nat
  enabled : Bool
deriving Repr, DecidableEq

/-- The saved-search row fields `SavedSearchRunner.run` reads. -/
structure SavedSearchRec where
  id : Nat
  name : String
  only_new : Bool
deriving Repr, DecidableEq

/-- The body of the per-recipient loop of `_send_notifications` (runner.py
lines 176-214), acting on the `(notified_channels, errors, db)` state. -/
def notifyStep (cfg : NotifyConfig) (deliver : String → Option String)
    (run_id saved_search_id : Nat) (dry_run : Bool) (now : String)
    (st : List String × List String × SearchDB) (r : String) :
    List String × List String × SearchDB :=
  let key := generate_dedupe_key saved_search_id run_id cfg.channel r
  if dry_run then (st.1 ++ [cfg.channel ++ ":" ++ r], st.2.1, st.2.2)
  else
    match deliver r with
    | none =>
      (st.1 ++ [cfg.channel ++ ":" ++ r], st.2.1,
       create_notification st.2.2 run_id cfg.channel r "ok" key none now)
    | some e =>
      (st.1, st.2.1 ++ [e],
       create_notification st.2.2 run_id cfg.channel r "failed" key (some e) now)

/-- `SavedSearchRunner._send_notifications` (runner.py lines 154-223).
`deliver recipient` is the outcome of `send_notification` for that recipient:
`none` for success, `some msg` for a raised `NotificationError`.  Returns
`(notify_status, notify_error, notified_channels)` — note the empty-recipients
early return yields `none` (Python `None`), not `"failed"` — and the new
state. -/
def send_notifications (cfg : NotifyConfig) (deliver : String → Option String)
    (run_id saved_search_id : Nat) (items : List Item) (dry_run : Bool) (now : String)
    (db : SearchDB) : (Option String × Option String × List String) × SearchDB :=
  if cfg.recipients.isEmpty then ((none, some "通知先が設定されていません", []), db)
  else
    let notify_items := items.take cfg.max_items
    let folded := cfg.recipients.foldl
      (notifyStep cfg deliver run_id saved_search_id dry_run now) ([], [], db)
    let notified := folded.1
    let errors := folded.2.1
    let db := folded.2.2
    let db := if !notified.isEmpty && !dry_run then mark_hits_notified db run_id now else db
    have _ := notify_items
    if !errors.isEmpty then
      ((some (if notified.isEmpty then "failed" else "partial"),
        some ("; ".intercalate errors), notified), db)
    else ((some "ok", none, notified), db)

/-- What `SavedSearchRunner.run` returns (the result dict of its success
path). -/
structure RunOutcome where
  name : String
  total : Nat
  new : Nat
  notified : Bool
  notify_status : Option String
  status : String
deriving Repr, DecidableEq

/-- `SavedSearchRunner.run` (runner.py lines 41-152), success path.  The
`search_items` call is replayed against the store by SQL; its outcome — the
page of items and the total count — is passed in as `search_result` (every
returned item carries its row id).  Exceptions (and hence the `failed`
finalization path) do not arise in this pure model. -/
def runSavedSearch (ss : SavedSearchRec) (search_result : List Item × Nat)
    (cfg : Option NotifyConfig) (deliver : String → Option String)
    (notify dry_run : Bool) (now : String) (db : SearchDB) : RunOutcome × SearchDB :=
  let run_id := if dry_run then 0 else nextRunId db
  let db := if dry_run then db else create_saved_search_run db ss.id now
  let items := search_result.1
  let total := search_result.2
  let new_items :=
    if ss.only_new && !dry_run then
      let previous := get_previous_hit_item_ids db ss.id
      items.filter (fun it =>
        match it.id with
        | some i => !previous.contains i
        | none => true)
    else items
  let db :=
    if dry_run then db
    else new_items.foldl
      (fun db it => create_saved_search_hit db run_id (it.id.getD 0) it.content_hash now) db
  let notifyOutcome :=
    match cfg with
    | some c =>
      if notify && !new_items.isEmpty && c.enabled then
        send_notifications c deliver run_id ss.id new_items dry_run now db
      else ((none, none, []), db)
    | none => ((none, none, []), db)
  let notify_status := notifyOutcome.1.1
  let notify_error := notifyOutcome.1.2.1
  let notified_channels := notifyOutcome.1.2.2
  let db := notifyOutcome.2
  let db :=
    if dry_run then db
    else update_saved_search_run db run_id new_items.length "ok" none
      (if notified_channels.isEmpty then none else some notified_channels)
      notify_status notify_error
  (⟨ss.name, total, new_items.length, !notified_channels.isEmpty, notify_status, "ok"⟩, db)

/-! ## C4 — date-range chunking -/

lemma dateRangeGo_stop (e d fuel current : Nat) (h : e < current) :
    dateRangeGo e d fuel current = [] := by
  cases fuel with
  | zero => rfl
  | succ n => simp [dateRangeGo, Nat.not_le.mpr h]

lemma dateRangeGo_spec (e d : Nat) (hd : 1 ≤ d) :
    ∀ fuel current, current ≤ e → e + 1 - current ≤ fuel →
      (dateRangeGo e d fuel current).head?.map Prod.fst = some current
      ∧ ((dateRangeGo e d fuel current).getLast?).map Prod.snd = some e
      ∧ List.Chain' (fun p q : Nat × Nat => q.1 = p.2 + 1) (dateRangeGo e d fuel current)
      ∧ (∀ p ∈ dateRangeGo e d fuel current, current ≤ p.1 ∧ p.1 ≤ p.2 ∧ p.2 ≤ e)
      ∧ List.Pairwise (fun p q : Nat × Nat => p.2 < q.1) (dateRangeGo e d fuel current)
      ∧ (dateRangeGo e d fuel current).length = (e - current + 1 + d - 1) / d
      ∧ (∀ x, current ≤ x → x ≤ e →
          ∃ p ∈ dateRangeGo e d fuel current, p.1 ≤ x ∧ x ≤ p.2) := by
  intro fuel
  induction fuel with
  | zero => intro current hc hf; omega
  | succ n ih =>
    intro current hc hf
    have hgo : dateRangeGo e d (n + 1) current =
        (current, min (current + d - 1) e) ::
          dateRangeGo e d n (min (current + d - 1) e + 1) := by
      simp [dateRangeGo, hc]
    by_cases hm : current + d - 1 < e
    · -- the chunk is full and more days remain
      have hmin : min (current + d - 1) e = current + d - 1 := by omega
      obtain ⟨ih1, ih2, ih3, ih4, ih5, ih6, ih7⟩ := ih (current + d - 1 + 1) (by omega) (by omega)
      rw [hmin] at hgo
      obtain ⟨q, tl, htl⟩ : ∃ q tl, dateRangeGo e d n (current + d - 1 + 1) = q :: tl := by
        cases hh : dateRangeGo e d n (current + d - 1 + 1) with
        | nil => rw [hh] at ih1; simp at ih1
        | cons q tl => exact ⟨q, tl, rfl⟩
      have hq1 : q.1 = current + d - 1 + 1 := by
        rw [htl] at ih1; simp at ih1; omega
      refine ⟨?_, ?_, ?_, ?_, ?_, ?_, ?_⟩
      · rw [hgo]; simp
      · rw [hgo, htl, List.getLast?_cons_cons]; rw [htl] at ih2; exact ih2
      · rw [hgo]
        refine List.chain'_cons'.mpr ⟨?_, ih3⟩
        intro b hb
        rw [htl] at hb; simp at hb
        subst hb; omega
      · rw [hgo]
        intro p hp
        rcases List.mem_cons.mp hp with h | h
        · subst h; omega
        · have := ih4 p h; omega
      · rw [hgo]
        refine List.pairwise_cons.mpr ⟨?_, ih5⟩
        intro p hp
        have := ih4 p hp; omega
      · rw [hgo]
        simp only [List.length_cons]
        rw [ih6]
        have h1 : e - current + 1 + d - 1 = (e - current) + d := by omega
        have h2 : e - (current + d - 1 + 1) + 1 + d - 1 = e - current := by omega
        rw [h1, h2, Nat.add_div_right _ (by omega)]
      · intro x hx1 hx2
        rw [hgo]
        by_cases hxe : x ≤ current + d - 1
        · exact ⟨(current, current + d - 1), by simp, by omega⟩
        · obtain ⟨p, hp, hpx⟩ := ih7 x (by omega) hx2
          exact ⟨p, List.mem_cons_of_mem _ hp, hpx⟩
    · -- the last chunk: clipped to `e`
      have hmin : min (current + d - 1) e = e := by omega
      rw [hmin] at hgo
      have hnil : dateRangeGo e d n (e + 1) = [] := dateRangeGo_stop e d n (e + 1) (by omega)
      rw [hnil] at hgo
      refine ⟨?_, ?_, ?_, ?_, ?_, ?_, ?_⟩
      · rw [hgo]; simp
      · rw [hgo]; simp
      · rw [hgo]; simp
      · rw [hgo]; intro p hp; simp at hp; subst hp; omega
      · rw [hgo]; simp
      · rw [hgo]
        simp only [List.length_cons, List.length_nil]
        refine (Nat.div_eq_of_lt_le (by omega) (by omega)).symm
      · intro x hx1 hx2
        rw [hgo]
        exact ⟨(current, e), by simp, by omega⟩

/-- C4: for every `start_date ≤ end_date` and `days_per_chunk ≥ 1`, the chunk
sequence of `date_range_generator` (dates as day ordinals) starts at the start
date, ends at the end date, is contiguous with inclusive boundaries (each next
chunk starts the day after the previous chunk ends), has non-empty
non-overlapping chunks inside the range, covers every day of
`[start_date, end_date]`, and its length is `ceil((end - start + 1) /
days_per_chunk)`, which is exactly `estimate_chunks`. -/
theorem date_range_chunks_spec (s e d : Nat) (hs : s ≤ e) (hd : 1 ≤ d) :
    (date_range_generator s e d).head?.map Prod.fst = some s
    ∧ ((date_range_generator s e d).getLast?).map Prod.snd = some e
    ∧ List.Chain' (fun p q : Nat × Nat => q.1 = p.2 + 1) (date_range_generator s e d)
    ∧ (∀ p ∈ date_range_generator s e d, s ≤ p.1 ∧ p.1 ≤ p.2 ∧ p.2 ≤ e)
    ∧ List.Pairwise (fun p q : Nat × Nat => p.2 < q.1) (date_range_generator s e d)
    ∧ (∀ x, s ≤ x → x ≤ e → ∃ p ∈ date_range_generator s e d, p.1 ≤ x ∧ x ≤ p.2)
    ∧ (date_range_generator s e d).length = (e - s + 1 + d - 1) / d
    ∧ (date_range_generator s e d).length = estimate_chunks s e d := by
  obtain ⟨h1, h2, h3, h4, h5, h6, h7⟩ :=
    dateRangeGo_spec e d hd (e + 1 - s) s hs (Nat.le_refl _)
  exact ⟨h1, h2, h3, h4, h5, h7, h6, h6⟩

/-- The spec's scenario: 2025-01-01..2025-01-20 (day ordinals 0..19) with
`days_per_chunk = 7` gives exactly the three chunks (01-01,01-07),
(01-08,01-14), (01-15,01-20). -/
theorem date_range_generator_example :
    date_range_generator 0 19 7 = [(0, 6), (7, 13), (14, 19)] ∧ estimate_chunks 0 19 7 = 3 := by
  decide

/-- Witness for `date_range_chunks_spec` at the scenario input. -/
theorem date_range_chunks_spec_witness :
    ((0 : Nat) ≤ 19 ∧ (1 : Nat) ≤ 7)
    ∧ ((date_range_generator 0 19 7).head?.map Prod.fst = some 0
    ∧ ((date_range_generator 0 19 7).getLast?).map Prod.snd = some 19
    ∧ List.Chain' (fun p q : Nat × Nat => q.1 = p.2 + 1) (date_range_generator 0 19 7)
    ∧ (∀ p ∈ date_range_generator 0 19 7, 0 ≤ p.1 ∧ p.1 ≤ p.2 ∧ p.2 ≤ 19)
    ∧ List.Pairwise (fun p q : Nat × Nat => p.2 < q.1) (date_range_generator 0 19 7)
    ∧ (∀ x, 0 ≤ x → x ≤ 19 → ∃ p ∈ date_range_generator 0 19 7, p.1 ≤ x ∧ x ≤ p.2)
    ∧ (date_range_generator 0 19 7).length = (19 - 0 + 1 + 7 - 1) / 7
    ∧ (date_range_generator 0 19 7).length = estimate_chunks 0 19 7) :=
  ⟨⟨by decide, by decide⟩, date_range_chunks_spec 0 19 7 (by decide) (by decide)⟩

/-! ## C5 — batch normalization partitions its input -/

/-- The success projection of a per-record normalizer. -/
def exceptOk {α ε β : Type _} (f : α → Except ε β) (r : α) : Option β :=
  match f r with
  | .ok b => some b
  | .error _ => none

/-- The failure projection of a per-record normalizer: the `(record, error)`
pair the batch loop collects. -/
def exceptErr {α ε β : Type _} (f : α → Except ε β) (r : α) : Option (α × ε) :=
  match f r with
  | .ok _ => none
  | .error e => some (r, e)

lemma except_partition_length {α ε β : Type _} (f : α → Except ε β) (rs : List α) :
    (rs.filterMap (exceptOk f)).length + (rs.filterMap (exceptErr f)).length = rs.length := by
  induction rs with
  | nil => simp
  | cons r rest ih =>
    cases h : f r with
    | ok b =>
      have h1 : exceptOk f r = some b := by simp [exceptOk, h]
      have h2 : exceptErr f r = none := by simp [exceptErr, h]
      simp only [List.filterMap_cons, h1, h2, List.length_cons]
      omega
    | error e =>
      have h1 : exceptOk f r = none := by simp [exceptOk, h]
      have h2 : exceptErr f r = some (r, e) := by simp [exceptErr, h]
      simp only [List.filterMap_cons, h1, h2, List.length_cons]
      omega

lemma except_err_map_fst {α ε β : Type _} (f : α → Except ε β) (rs : List α) :
    (rs.filterMap (exceptErr f)).map Prod.fst = rs.filter (fun r => (exceptErr f r).isSome) := by
  induction rs with
  | nil => simp
  | cons r rest ih =>
    cases h : f r with
    | ok b =>
      have h2 : exceptErr f r = none := by simp [exceptErr, h]
      simp [List.filterMap_cons, List.filter_cons, h2, ih]
    | error e =>
      have h2 : exceptErr f r = some (r, e) := by simp [exceptErr, h]
      simp [List.filterMap_cons, List.filter_cons, h2, ih]

lemma normalize_kkj_result_fails_iff (source : String) (r : KKJSearchResult) :
    (exceptErr (fun r => normalize_kkj_result r source) r).isSome = (r.project_name == "") := by
  by_cases h : r.project_name = ""
  · simp [exceptErr, normalize_kkj_result, h]
  · simp [exceptErr, normalize_kkj_result, h]

lemma normalize_pportal_result_fails_iff (source : String) (r : PPortalSearchResult) :
    (exceptErr (fun r => normalize_pportal_result r source) r).isSome = (r.title == "") := by
  by_cases h : r.title = ""
  · simp [exceptErr, normalize_pportal_result, h]
  · simp [exceptErr, normalize_pportal_result, h]

lemma normalize_kkj_results_eq (source : String) (rs : List KKJSearchResult) :
    normalize_kkj_results rs source
    = (rs.filterMap (exceptOk (fun r => normalize_kkj_result r source)),
       rs.filterMap (exceptErr (fun r => normalize_kkj_result r source))) := by
  unfold normalize_kkj_results
  suffices h : ∀ acc1 acc2,
      rs.foldl (fun acc r =>
        match normalize_kkj_result r source with
        | .ok item => (acc.1 ++ [item], acc.2)
        | .error e => (acc.1, acc.2 ++ [(r, e)])) (acc1, acc2)
      = (acc1 ++ rs.filterMap (exceptOk (fun r => normalize_kkj_result r source)),
         acc2 ++ rs.filterMap (exceptErr (fun r => normalize_kkj_result r source))) by
    rw [h [] []]; simp
  induction rs with
  | nil => intro acc1 acc2; simp
  | cons r rest ih =>
    intro acc1 acc2
    cases h : normalize_kkj_result r source with
    | ok item =>
      have h1 : exceptOk (fun r => normalize_kkj_result r source) r = some item := by
        simp [exceptOk, h]
      have h2 : exceptErr (fun r => normalize_kkj_result r source) r = none := by
        simp [exceptErr, h]
      simp only [List.foldl_cons, h, List.filterMap_cons, h1, h2]
      rw [ih]
      simp
    | error e =>
      have h1 : exceptOk (fun r => normalize_kkj_result r source) r = none := by
        simp [exceptOk, h]
      have h2 : exceptErr (fun r => normalize_kkj_result r source) r = some (r, e) := by
        simp [exceptErr, h]
      simp only [List.foldl_cons, h, List.filterMap_cons, h1, h2]
      rw [ih]
      simp

lemma normalize_pportal_results_eq (source : String) (rs : List PPortalSearchResult) :
    normalize_pportal_results rs source
    = (rs.filterMap (exceptOk (fun r => normalize_pportal_result r source)),
       rs.filterMap (exceptErr (fun r => normalize_pportal_result r source))) := by
  unfold normalize_pportal_results
  suffices h : ∀ acc1 acc2,
      rs.foldl (fun acc r =>
        match normalize_pportal_result r source with
        | .ok item => (acc.1 ++ [item], acc.2)
        | .error e => (acc.1, acc.2 ++ [(r, e)])) (acc1, acc2)
      = (acc1 ++ rs.filterMap (exceptOk (fun r => normalize_pportal_result r source)),
         acc2 ++ rs.filterMap (exceptErr (fun r => normalize_pportal_result r source))) by
    rw [h [] []]; simp
  induction rs with
  | nil => intro acc1 acc2; simp
  | cons r rest ih =>
    intro acc1 acc2
    cases h : normalize_pportal_result r source with
    | ok item =>
      have h1 : exceptOk (fun r => normalize_pportal_result r source) r = some item := by
        simp [exceptOk, h]
      have h2 : exceptErr (fun r => normalize_pportal_result r source) r = none := by
        simp [exceptErr, h]
      simp only [List.foldl_cons, h, List.filterMap_cons, h1, h2]
      rw [ih]
      simp
    | error e =>
      have h1 : exceptOk (fun r => normalize_pportal_result r source) r = none := by
        simp [exceptOk, h]
      have h2 : exceptErr (fun r => normalize_pportal_result r source) r = some (r, e) := by
        simp [exceptErr, h]
      simp only [List.foldl_cons, h, List.filterMap_cons, h1, h2]
      rw [ih]
      simp

/-- C5: both `normalize_many` variants partition their input: each input
record yields exactly one `Item` (in input order) or exactly one
`(record, error)` pair, so the output lengths always add up to the input
length, and the error records are exactly those missing the mandatory title —
a bad record never stops the later ones from being processed. -/
theorem normalize_many_partition (rsK : List KKJSearchResult) (rsP : List PPortalSearchResult)
    (srcK srcP : String) :
    ((normalize_kkj_results rsK srcK).1.length + (normalize_kkj_results rsK srcK).2.length
        = rsK.length
      ∧ (normalize_kkj_results rsK srcK).1
        = rsK.filterMap (exceptOk (fun r => normalize_kkj_result r srcK))
      ∧ (normalize_kkj_results rsK srcK).2
        = rsK.filterMap (exceptErr (fun r => normalize_kkj_result r srcK))
      ∧ (normalize_kkj_results rsK srcK).2.map Prod.fst
        = rsK.filter (fun r => r.project_name == ""))
    ∧ ((normalize_pportal_results rsP srcP).1.length
        + (normalize_pportal_results rsP srcP).2.length = rsP.length
      ∧ (normalize_pportal_results rsP srcP).1
        = rsP.filterMap (exceptOk (fun r => normalize_pportal_result r srcP))
      ∧ (normalize_pportal_results rsP srcP).2
        = rsP.filterMap (exceptErr (fun r => normalize_pportal_result r srcP))
      ∧ (normalize_pportal_results rsP srcP).2.map Prod.fst
        = rsP.filter (fun r => r.title == "")) := by
  have hk := normalize_kkj_results_eq srcK rsK
  have hp := normalize_pportal_results_eq srcP rsP
  refine ⟨⟨?_, ?_, ?_, ?_⟩, ?_, ?_, ?_, ?_⟩
  · rw [hk]; exact except_partition_length (fun r => normalize_kkj_result r srcK) rsK
  · rw [hk]
  · rw [hk]
  · rw [hk]
    rw [show ((rsK.filterMap (exceptOk (fun r => normalize_kkj_result r srcK)),
        rsK.filterMap (exceptErr (fun r => normalize_kkj_result r srcK))).2)
      = rsK.filterMap (exceptErr (fun r => normalize_kkj_result r srcK)) from rfl]
    rw [except_err_map_fst]
    exact List.filter_congr (fun r _ => normalize_kkj_result_fails_iff srcK r)
  · rw [hp]; exact except_partition_length (fun r => normalize_pportal_result r srcP) rsP
  · rw [hp]
  · rw [hp]
  · rw [hp]
    rw [show ((rsP.filterMap (exceptOk (fun r => normalize_pportal_result r srcP)),
        rsP.filterMap (exceptErr (fun r => normalize_pportal_result r srcP))).2)
      = rsP.filterMap (exceptErr (fun r => normalize_pportal_result r srcP)) from rfl]
    rw [except_err_map_fst]
    exact List.filter_congr (fun r _ => normalize_pportal_result_fails_iff srcP r)

/-- The spec's scenario: a batch of 5 records where record #3 lacks a title
yields 4 items and 1 (record, error) pair, and records #4-#5 are still
processed. -/
theorem normalize_many_scenario :
    let recs : List PPortalSearchResult :=
      [⟨"c1", "t1", "o", "", "", none, none, none⟩,
       ⟨"c2", "t2", "o", "", "", none, none, none⟩,
       ⟨"c3", "", "o", "", "", none, none, none⟩,
       ⟨"c4", "t4", "o", "", "", none, none, none⟩,
       ⟨"c5", "t5", "o", "", "", none, none, none⟩]
    (normalize_pportal_results recs "pportal").1.length = 4
    ∧ (normalize_pportal_results recs "pportal").2.length = 1
    ∧ (normalize_pportal_results recs "pportal").2.map (fun pe => pe.1.case_number) = ["c3"]
    ∧ (normalize_pportal_results recs "pportal").1.map (fun it => it.source_item_id)
      = [some "c1", some "c2", some "c4", some "c5"] := by
  decide

/-! ## C7 — retry behaviour of the two source clients -/

/-- C7 (amended): the KKJ client's `_fetch` is wrapped in a retry policy of up
to 3 attempts (with exponentially increasing backoff waits, which are real
time and outside this model), but the tenacity decorator carries no `retry=`
filter, so it retries on ANY failed attempt — transport failures AND fatal
protocol errors (HTTP ≥ 400) alike — stopping early on the first success and
re-raising the third failure; only the XML parse and the embedded
error-element check run outside the retry wrapper and are never retried.  The
scraping pportal client issues its search request exactly once: no retry
wraps it, even for transport failures. -/
theorem source_client_retry_behaviour :
    (∀ env v, kkjFetchOnce (env 0) = .ok v → kkjFetch env = (.ok v, 1))
    ∧ (∀ env e₀, kkjFetchOnce (env 0) = .error e₀ → 2 ≤ (kkjFetch env).2)
    ∧ (∀ env e₀ v, kkjFetchOnce (env 0) = .error e₀ → kkjFetchOnce (env 1) = .ok v →
        kkjFetch env = (.ok v, 2))
    ∧ (∀ env e₀ e₁, kkjFetchOnce (env 0) = .error e₀ → kkjFetchOnce (env 1) = .error e₁ →
        kkjFetch env = (kkjFetchOnce (env 2), 3))
    ∧ (∀ env, (kkjSearch env).2 = (kkjFetch env).2)
    ∧ (∀ env, pportalSearch env = (pportalSearchOnce (env 0), 1)) := by
  refine ⟨?_, ?_, ?_, ?_, ?_, ?_⟩
  · intro env v h
    simp [kkjFetch, retryFetch, h]
  · intro env e₀ h
    simp only [kkjFetch, retryFetch, h]
    cases h1 : kkjFetchOnce (env 1) with
    | ok v => simp
    | error e => simp [retryFetch]
  · intro env e₀ v h0 h1
    simp [kkjFetch, retryFetch, h0, h1]
  · intro env e₀ e₁ h0 h1
    simp [kkjFetch, retryFetch, h0, h1]
  · intro env
    rcases hf : kkjFetch env with ⟨res, n⟩
    cases res with
    | error e => simp [kkjSearch, hf]
    | ok v =>
      obtain ⟨body, st, ct⟩ := v
      cases hp : parse_xml_response body with
      | error e => simp [kkjSearch, hf, hp]
      | ok resp => simp [kkjSearch, hf, hp]
  · intro env
    rfl

/-- The network behaviour refuting C7 for the KKJ client: request 0 returns
HTTP 500, request 1 returns a well-formed 200 response. -/
def c7KKJEnv : Nat → HttpOutcome := fun i =>
  if i == 0 then .response 500 (.malformed "") "text/html"
  else .response 200 (.results "1.0" 0 []) "application/xml"

/-- The network behaviour refuting C7 for the pportal client: every request
fails at the transport level. -/
def c7PPEnv : Nat → PPortalHttp := fun _ => .transportError "timeout"

/-- C7 counterexample: the first KKJ request fails with a fatal protocol error
(HTTP 500 ≥ 400), yet a second request is issued and its response is returned
— the protocol error WAS retried, contradicting "a fatal protocol error is
never retried"; and the pportal client performs exactly one attempt even for a
transport-level failure, contradicting "every outbound request is wrapped in a
retry policy of up to 3 attempts" for that client. -/
theorem source_client_retry_counterexample :
    kkjFetchOnce (c7KKJEnv 0) = .error (.api "HTTP error" (some 500))
    ∧ (kkjFetch c7KKJEnv).2 = 2
    ∧ (kkjFetch c7KKJEnv).1 = .ok (.results "1.0" 0 [], 200, "application/xml")
    ∧ pportalSearch c7PPEnv = (.error (.transport "timeout"), 1) :=
  ⟨rfl, rfl, rfl, rfl⟩

/-! ## C10 — pportal items: empty-string URL, absent body hash -/

/-- C10: every successfully normalized pportal row yields an item whose
`body_hash` is `None` (the body is the empty string) and whose `url` is always
a string — `result.detail_url or ""` — never an absent value; when the row has
no detail link the url is the empty string, which the upsert resolver's
truthiness test treats as absent (the URL lookup stage behaves exactly as for
a `None` url), while the stored row still participates in the store's partial
unique URL index (`WHERE url IS NOT NULL`). -/
theorem pportal_item_url_and_body_hash (r : PPortalSearchResult) (source : String)
    (db : List ItemRow) (nid : Nat) (now : String) :
    match normalize_pportal_result r source with
    | .error _ => True
    | .ok item =>
        item.body_hash = none
        ∧ item.url = some (r.detail_url.getD "")
        ∧ item.url.isSome = true
        ∧ (if r.detail_url.getD "" = "" then
            resolveExisting item db = resolveExisting { item with url := none } db
            ∧ urlInUniqueIndex (insertRow nid item now) = true
          else True) := by
  by_cases h : r.title = ""
  · simp [normalize_pportal_result, h]
  · simp only [normalize_pportal_result, h]
    simp only [beq_iff_eq, h, if_false, reduceCtorEq]
    refine ⟨by simp [generate_body_hash], trivial, rfl, ?_⟩
    by_cases hd : r.detail_url.getD "" = ""
    · rw [if_pos hd]
      constructor
      · rw [hd]
        simp [resolveExisting, truthy]
      · simp [urlInUniqueIndex, insertRow]
    · rw [if_neg hd]
      trivial

/-! ## C2 — content-hash invariance under whitespace/NFKC variation -/

lemma normalize_of_tokens_eq (s t : String)
    (h : pySplit (nfkcStr s) = pySplit (nfkcStr t)) :
    normalize_string (some s) = normalize_string (some t) := by
  simp only [normalize_string]
  rw [h]

lemma normalize_opt_getD (o : Option String) :
    normalize_string o = normalize_string (some (o.getD "")) := by
  cases o with
  | none => rfl
  | some s => rfl

/-- C2 (amended): `generate_content_hash` is invariant under differences in
whitespace runs, leading/trailing whitespace and NFKC width/compatibility
variants of its components — two components are such variants exactly when
they carry the same NFKC-normalized whitespace-separated tokens — PROVIDED the
Python truthiness of the optional `source_item_id` is unchanged: a truthy id
prepends one normalized field, a falsy (`None`/empty) one prepends nothing.
Determinism is inherent: the digest is a pure function of the six inputs. -/
theorem content_hash_whitespace_nfkc_invariant
    (t₁ t₂ o₁ o₂ : String) (p₁ p₂ d₁ d₂ u₁ u₂ s₁ s₂ : Option String)
    (ht : pySplit (nfkcStr t₁) = pySplit (nfkcStr t₂))
    (ho : pySplit (nfkcStr o₁) = pySplit (nfkcStr o₂))
    (hp : pySplit (nfkcStr (p₁.getD "")) = pySplit (nfkcStr (p₂.getD "")))
    (hdl : pySplit (nfkcStr (d₁.getD "")) = pySplit (nfkcStr (d₂.getD "")))
    (hu : pySplit (nfkcStr (u₁.getD "")) = pySplit (nfkcStr (u₂.getD "")))
    (hsid : pySplit (nfkcStr (s₁.getD "")) = pySplit (nfkcStr (s₂.getD "")))
    (htr : truthy s₁ = truthy s₂) :
    generate_content_hash t₁ o₁ p₁ d₁ u₁ s₁ = generate_content_hash t₂ o₂ p₂ d₂ u₂ s₂ := by
  have et := normalize_of_tokens_eq _ _ ht
  have eo := normalize_of_tokens_eq _ _ ho
  have ep : normalize_string p₁ = normalize_string p₂ := by
    rw [normalize_opt_getD p₁, normalize_opt_getD p₂]
    exact normalize_of_tokens_eq _ _ hp
  have ed : normalize_string d₁ = normalize_string d₂ := by
    rw [normalize_opt_getD d₁, normalize_opt_getD d₂]
    exact normalize_of_tokens_eq _ _ hdl
  have eu : normalize_string u₁ = normalize_string u₂ := by
    rw [normalize_opt_getD u₁, normalize_opt_getD u₂]
    exact normalize_of_tokens_eq _ _ hu
  have es : normalize_string s₁ = normalize_string s₂ := by
    rw [normalize_opt_getD s₁, normalize_opt_getD s₂]
    exact normalize_of_tokens_eq _ _ hsid
  unfold generate_content_hash contentParts
  rw [htr, et, eo, ep, ed, eu, es]

/-- Witness for `content_hash_whitespace_nfkc_invariant`: fullwidth letters,
doubled/newline whitespace, edge whitespace and a `None`-vs-empty deadline on
one side, plain ASCII on the other. -/
theorem content_hash_whitespace_nfkc_invariant_witness :
    (pySplit (nfkcStr "Ｔｏｋｙｏ  Bid\n2025") = pySplit (nfkcStr " Tokyo Bid 2025 ")
     ∧ pySplit (nfkcStr "Ａ  B") = pySplit (nfkcStr "A B")
     ∧ pySplit (nfkcStr ((some "2025-01-01" : Option String).getD ""))
       = pySplit (nfkcStr ((some " 2025-01-01 " : Option String).getD ""))
     ∧ pySplit (nfkcStr ((none : Option String).getD ""))
       = pySplit (nfkcStr ((some "" : Option String).getD ""))
     ∧ pySplit (nfkcStr ((some "http://x" : Option String).getD ""))
       = pySplit (nfkcStr ((some "http://x" : Option String).getD ""))
     ∧ pySplit (nfkcStr ((some "ＩＤ１" : Option String).getD ""))
       = pySplit (nfkcStr ((some "ID1" : Option String).getD ""))
     ∧ truthy (some "ＩＤ１") = truthy (some "ID1"))
    ∧ generate_content_hash "Ｔｏｋｙｏ  Bid\n2025" "Ａ  B" (some "2025-01-01") none
        (some "http://x") (some "ＩＤ１")
      = generate_content_hash " Tokyo Bid 2025 " "A B" (some " 2025-01-01 ") (some "")
        (some "http://x") (some "ID1") :=
  ⟨⟨by decide, by decide, by decide, by decide, by decide, by decide, by decide⟩,
   content_hash_whitespace_nfkc_invariant
     "Ｔｏｋｙｏ  Bid\n2025" " Tokyo Bid 2025 " "Ａ  B" "A B"
     (some "2025-01-01") (some " 2025-01-01 ") none (some "")
     (some "http://x") (some "http://x") (some "ＩＤ１") (some "ID1")
     (by decide) (by decide) (by decide) (by decide) (by decide) (by decide) (by decide)⟩

set_option maxRecDepth 1000000 in
/-- C2 counterexample: a whitespace-only `source_item_id` differs from an
empty one only in whitespace (their canonical forms agree), yet the digests
differ: `" "` is truthy in Python, so an extra (empty) pipe-delimited field is
prepended before hashing. -/
theorem content_hash_blank_sid_counterexample :
    pySplit (nfkcStr (" " : String)) = pySplit (nfkcStr ("" : String))
    ∧ normalize_string (some " ") = normalize_string (some "")
    ∧ generate_content_hash "t" "o" none none none (some " ")
      ≠ generate_content_hash "t" "o" none none none (some "") := by
  refine ⟨by decide, by decide, by decide⟩

/-! ## C8 — upsert identity-resolution order -/

/-- C8: `upsert_item` resolves identity by short-circuiting lookups in the
fixed order (source, source-native id) — when the item's id is truthy — then
URL — when truthy — then content hash; the first lookup returning a row fixes
the single row updated in place (all mutable fields overwritten, `updated_at`
refreshed, `id`/`source`/`created_at` untouched, `is_new = false`), and only
when no lookup matches is a new row inserted with `created_at = updated_at =
now` and `is_new = true`. -/
theorem upsert_identity_resolution_order (item : Item) (now : String) (db : List ItemRow) :
    (∀ eid, truthy item.source_item_id = true →
       findBySourceItemId item.source (item.source_item_id.getD "") db = some eid →
       upsert_item item now db
         = (eid, false, db.map (fun r => if r.id == eid then updateRow r item now else r)))
    ∧ (∀ eid,
        (truthy item.source_item_id = true →
          findBySourceItemId item.source (item.source_item_id.getD "") db = none) →
        truthy item.url = true → findByUrl (item.url.getD "") db = some eid →
        upsert_item item now db
          = (eid, false, db.map (fun r => if r.id == eid then updateRow r item now else r)))
    ∧ (∀ eid,
        (truthy item.source_item_id = true →
          findBySourceItemId item.source (item.source_item_id.getD "") db = none) →
        (truthy item.url = true → findByUrl (item.url.getD "") db = none) →
        findByContentHash item.content_hash db = some eid →
        upsert_item item now db
          = (eid, false, db.map (fun r => if r.id == eid then updateRow r item now else r)))
    ∧ ((truthy item.source_item_id = true →
          findBySourceItemId item.source (item.source_item_id.getD "") db = none) →
        (truthy item.url = true → findByUrl (item.url.getD "") db = none) →
        findByContentHash item.content_hash db = none →
        upsert_item item now db
          = (nextItemId db, true, db ++ [insertRow (nextItemId db) item now]))
    ∧ (∀ r, (updateRow r item now).updated_at = now ∧ (updateRow r item now).id = r.id
        ∧ (updateRow r item now).source = r.source
        ∧ (updateRow r item now).created_at = r.created_at
        ∧ (updateRow r item now).title = item.title
        ∧ (updateRow r item now).url = item.url
        ∧ (updateRow r item now).source_item_id = item.source_item_id
        ∧ (updateRow r item now).content_hash = item.content_hash)
    ∧ (∀ nid, (insertRow nid item now).created_at = now
        ∧ (insertRow nid item now).updated_at = now ∧ (insertRow nid item now).id = nid) := by
  refine ⟨?_, ?_, ?_, ?_, ?_, ?_⟩
  · intro eid h1 h2
    simp [upsert_item, resolveExisting, h1, h2]
  · intro eid h1 h2 h3
    cases hsid : truthy item.source_item_id with
    | false => simp [upsert_item, resolveExisting, hsid, h2, h3]
    | true => simp [upsert_item, resolveExisting, hsid, h1 hsid, h2, h3]
  · intro eid h1 h2 h3
    cases hsid : truthy item.source_item_id with
    | false =>
      cases hurl : truthy item.url with
      | false => simp [upsert_item, resolveExisting, hsid, hurl, h3]
      | true => simp [upsert_item, resolveExisting, hsid, hurl, h2 hurl, h3]
    | true =>
      cases hurl : truthy item.url with
      | false => simp [upsert_item, resolveExisting, hsid, hurl, h1 hsid, h3]
      | true => simp [upsert_item, resolveExisting, hsid, hurl, h1 hsid, h2 hurl, h3]
  · intro h1 h2 h3
    cases hsid : truthy item.source_item_id with
    | false =>
      cases hurl : truthy item.url with
      | false => simp [upsert_item, resolveExisting, hsid, hurl, h3]
      | true => simp [upsert_item, resolveExisting, hsid, hurl, h2 hurl, h3]
    | true =>
      cases hurl : truthy item.url with
      | false => simp [upsert_item, resolveExisting, hsid, hurl, h1 hsid, h3]
      | true => simp [upsert_item, resolveExisting, hsid, hurl, h1 hsid, h2 hurl, h3]
  · intro r
    refine ⟨rfl, rfl, rfl, rfl, rfl, rfl, rfl, rfl⟩
  · intro nid
    refine ⟨rfl, rfl, rfl⟩

/-! ## C1 — one row per identity -/

lemma find_id_append (q : ItemRow → Bool) (l₁ l₂ : List ItemRow)
    (h : (l₁.find? q).map (fun r => r.id) = none) :
    ((l₁ ++ l₂).find? q).map (fun r => r.id) = (l₂.find? q).map (fun r => r.id) := by
  rw [List.find?_append]
  cases hf : l₁.find? q with
  | some r => rw [hf] at h; simp at h
  | none => simp

lemma resolveExisting_nil (i : Item) : resolveExisting i [] = none := by
  cases hsid : truthy i.source_item_id <;> cases hurl : truthy i.url <;>
    simp [resolveExisting, findBySourceItemId, findByUrl, findByContentHash, hsid, hurl]

/-- After updating the row(s) with id `eid` in place, a lookup that found a
row with id `eid` first still finds a row with id `eid` first, provided the
updated row still matches and row ids are distinct. -/
lemma find?_upd_found (i : Item) (now : String) (eid : Nat) (q : ItemRow → Bool)
    (db : List ItemRow) (hnd : db.Pairwise (fun a b => a.id ≠ b.id))
    (r₀ : ItemRow) (hfind : db.find? q = some r₀) (hid : r₀.id = eid)
    (hq : q (updateRow r₀ i now) = true) :
    (db.map (fun r => if r.id == eid then updateRow r i now else r)).find? q
      = some (updateRow r₀ i now) := by
  induction db with
  | nil => simp at hfind
  | cons a rest ih =>
    rw [List.pairwise_cons] at hnd
    cases hqa : q a with
    | true =>
      rw [List.find?_cons_of_pos _ hqa] at hfind
      have ha : a = r₀ := by injection hfind
      subst ha
      simp only [List.map_cons]
      rw [show (if a.id == eid then updateRow a i now else a) = updateRow a i now by
        simp [hid]]
      exact List.find?_cons_of_pos _ hq
    | false =>
      rw [List.find?_cons_of_neg _ (by simp [hqa])] at hfind
      have hmem := List.mem_of_find?_eq_some hfind
      have haid : ¬ (a.id = eid) := fun hh => (hnd.1 r₀ hmem) (by rw [hh, hid])
      simp only [List.map_cons]
      rw [show (if a.id == eid then updateRow a i now else a) = a by simp [haid]]
      rw [List.find?_cons_of_neg _ (by simp [hqa])]
      exact ih hnd.2 hfind

/-- After the in-place update, a lookup that found nothing before either still
finds nothing or finds an updated row — whose id is `eid` either way. -/
lemma find?_upd_none (i : Item) (now : String) (eid : Nat) (q : ItemRow → Bool)
    (db : List ItemRow) (hfind : db.find? q = none) :
    ((db.map (fun r => if r.id == eid then updateRow r i now else r)).find? q).map
        (fun r => r.id) = none
    ∨ ((db.map (fun r => if r.id == eid then updateRow r i now else r)).find? q).map
        (fun r => r.id) = some eid := by
  induction db with
  | nil => left; simp
  | cons a rest ih =>
    have hqa : q a = false := by
      cases hq : q a
      · rfl
      · rw [List.find?_cons_of_pos _ hq] at hfind; simp at hfind
    rw [List.find?_cons_of_neg _ (by simp [hqa])] at hfind
    by_cases haid : a.id = eid
    · have ha : (if a.id == eid then updateRow a i now else a) = updateRow a i now := by
        simp [haid]
      cases hqu : q (updateRow a i now) with
      | true =>
        right
        simp only [List.map_cons]
        rw [ha, List.find?_cons_of_pos _ hqu]
        simp [updateRow, haid]
      | false =>
        rcases ih hfind with h | h
        · left
          simp only [List.map_cons]
          rw [ha, List.find?_cons_of_neg _ (by simp [hqu])]
          exact h
        · right
          simp only [List.map_cons]
          rw [ha, List.find?_cons_of_neg _ (by simp [hqu])]
          exact h
    · have ha : (if a.id == eid then updateRow a i now else a) = a := by simp [haid]
      rcases ih hfind with h | h
      · left
        simp only [List.map_cons]
        rw [ha, List.find?_cons_of_neg _ (by simp [hqa])]
        exact h
      · right
        simp only [List.map_cons]
        rw [ha, List.find?_cons_of_neg _ (by simp [hqa])]
        exact h

lemma findBySid_of_found (i : Item) (now : String) (eid : Nat) (db : List ItemRow)
    (hnd : db.Pairwise (fun a b => a.id ≠ b.id))
    (hsid : truthy i.source_item_id = true)
    (h : findBySourceItemId i.source (i.source_item_id.getD "") db = some eid) :
    findBySourceItemId i.source (i.source_item_id.getD "")
      (db.map (fun r => if r.id == eid then updateRow r i now else r)) = some eid := by
  unfold findBySourceItemId at h ⊢
  obtain ⟨r₀, hr₀, hr₀id⟩ : ∃ r₀, db.find? (fun r =>
      r.source == i.source && r.source_item_id == some (i.source_item_id.getD ""))
        = some r₀ ∧ r₀.id = eid := by
    cases hf : db.find? (fun r =>
        r.source == i.source && r.source_item_id == some (i.source_item_id.getD "")) with
    | none => rw [hf] at h; simp at h
    | some r => rw [hf] at h; simp at h; exact ⟨r, rfl, h⟩
  have hq₀ := List.find?_some hr₀
  obtain ⟨s, hs⟩ : ∃ s, i.source_item_id = some s := by
    cases hv : i.source_item_id
    · rw [hv] at hsid; simp [truthy] at hsid
    · exact ⟨_, rfl⟩
  have hqupd : (fun r => r.source == i.source
      && r.source_item_id == some (i.source_item_id.getD "")) (updateRow r₀ i now) = true := by
    simp only [updateRow, Bool.and_eq_true, beq_iff_eq] at hq₀ ⊢
    exact ⟨hq₀.1, by simp [hs]⟩
  rw [find?_upd_found i now eid _ db hnd r₀ hr₀ hr₀id hqupd]
  simp [updateRow, hr₀id]

lemma findByUrl_of_found (i : Item) (now : String) (eid : Nat) (db : List ItemRow)
    (hnd : db.Pairwise (fun a b => a.id ≠ b.id))
    (hurl : truthy i.url = true)
    (h : findByUrl (i.url.getD "") db = some eid) :
    findByUrl (i.url.getD "")
      (db.map (fun r => if r.id == eid then updateRow r i now else r)) = some eid := by
  unfold findByUrl at h ⊢
  obtain ⟨r₀, hr₀, hr₀id⟩ : ∃ r₀, db.find? (fun r => r.url == some (i.url.getD ""))
      = some r₀ ∧ r₀.id = eid := by
    cases hf : db.find? (fun r => r.url == some (i.url.getD "")) with
    | none => rw [hf] at h; simp at h
    | some r => rw [hf] at h; simp at h; exact ⟨r, rfl, h⟩
  obtain ⟨u, hu⟩ : ∃ u, i.url = some u := by
    cases hv : i.url
    · rw [hv] at hurl; simp [truthy] at hurl
    · exact ⟨_, rfl⟩
  have hqupd : (fun r => r.url == some (i.url.getD "")) (updateRow r₀ i now) = true := by
    simp only [updateRow, beq_iff_eq]
    simp [hu]
  rw [find?_upd_found i now eid _ db hnd r₀ hr₀ hr₀id hqupd]
  simp [updateRow, hr₀id]

lemma findByHash_of_found (i : Item) (now : String) (eid : Nat) (db : List ItemRow)
    (hnd : db.Pairwise (fun a b => a.id ≠ b.id))
    (h : findByContentHash i.content_hash db = some eid) :
    findByContentHash i.content_hash
      (db.map (fun r => if r.id == eid then updateRow r i now else r)) = some eid := by
  unfold findByContentHash at h ⊢
  obtain ⟨r₀, hr₀, hr₀id⟩ : ∃ r₀, db.find? (fun r => r.content_hash == i.content_hash)
      = some r₀ ∧ r₀.id = eid := by
    cases hf : db.find? (fun r => r.content_hash == i.content_hash) with
    | none => rw [hf] at h; simp at h
    | some r => rw [hf] at h; simp at h; exact ⟨r, rfl, h⟩
  have hqupd : (fun r => r.content_hash == i.content_hash) (updateRow r₀ i now) = true := by
    simp [updateRow]
  rw [find?_upd_found i now eid _ db hnd r₀ hr₀ hr₀id hqupd]
  simp [updateRow, hr₀id]

lemma findBySid_upd_none (i : Item) (now : String) (eid : Nat) (s sid : String)
    (db : List ItemRow) (h : findBySourceItemId s sid db = none) :
    findBySourceItemId s sid (db.map (fun r => if r.id == eid then updateRow r i now else r))
        = none
    ∨ findBySourceItemId s sid (db.map (fun r => if r.id == eid then updateRow r i now else r))
        = some eid := by
  unfold findBySourceItemId at h ⊢
  have hf : db.find? (fun r => r.source == s && r.source_item_id == some sid) = none := by
    cases hf : db.find? (fun r => r.source == s && r.source_item_id == some sid)
    · rfl
    · rw [hf] at h; simp at h
  exact find?_upd_none i now eid _ db hf

lemma findByUrl_upd_none (i : Item) (now : String) (eid : Nat) (u : String)
    (db : List ItemRow) (h : findByUrl u db = none) :
    findByUrl u (db.map (fun r => if r.id == eid then updateRow r i now else r)) = none
    ∨ findByUrl u (db.map (fun r => if r.id == eid then updateRow r i now else r)) = some eid := by
  unfold findByUrl at h ⊢
  have hf : db.find? (fun r => r.url == some u) = none := by
    cases hf : db.find? (fun r => r.url == some u)
    · rfl
    · rw [hf] at h; simp at h
  exact find?_upd_none i now eid _ db hf

/-- After `upsert_item i`, resolving `i` again finds exactly the row the
upsert touched: the updated row in the update case, the fresh row in the
insert case. -/
lemma resolve_after_upsert (i : Item) (now : String) (db : List ItemRow)
    (hnd : db.Pairwise (fun a b => a.id ≠ b.id)) :
    resolveExisting i (upsert_item i now db).2.2 = some (upsert_item i now db).1 := by
  cases hres : resolveExisting i db with
  | none =>
    simp only [upsert_item, hres]
    cases hsid : truthy i.source_item_id with
    | true =>
      obtain ⟨s, hs⟩ : ∃ s, i.source_item_id = some s := by
        cases hv : i.source_item_id
        · rw [hv] at hsid; simp [truthy] at hsid
        · exact ⟨_, rfl⟩
      cases h1 : findBySourceItemId i.source (i.source_item_id.getD "") db with
      | some x => exact absurd hres (by simp [resolveExisting, hsid, h1])
      | none =>
        have hrow : findBySourceItemId i.source (i.source_item_id.getD "")
            (db ++ [insertRow (nextItemId db) i now]) = some (nextItemId db) := by
          unfold findBySourceItemId at h1 ⊢
          rw [find_id_append _ _ _ h1, List.find?_cons_of_pos _ (by simp [insertRow, hs])]
          simp [insertRow]
        simp [resolveExisting, hsid, hrow]
    | false =>
      cases hurl : truthy i.url with
      | true =>
        obtain ⟨u, hu⟩ : ∃ u, i.url = some u := by
          cases hv : i.url
          · rw [hv] at hurl; simp [truthy] at hurl
          · exact ⟨_, rfl⟩
        cases h2 : findByUrl (i.url.getD "") db with
        | some x => exact absurd hres (by simp [resolveExisting, hsid, hurl, h2])
        | none =>
          have hrow : findByUrl (i.url.getD "")
              (db ++ [insertRow (nextItemId db) i now]) = some (nextItemId db) := by
            unfold findByUrl at h2 ⊢
            rw [find_id_append _ _ _ h2, List.find?_cons_of_pos _ (by simp [insertRow, hu])]
            simp [insertRow]
          simp [resolveExisting, hsid, hurl, hrow]
      | false =>
        cases h3 : findByContentHash i.content_hash db with
        | some x => exact absurd hres (by simp [resolveExisting, hsid, hurl, h3])
        | none =>
          have hrow : findByContentHash i.content_hash
              (db ++ [insertRow (nextItemId db) i now]) = some (nextItemId db) := by
            unfold findByContentHash at h3 ⊢
            rw [find_id_append _ _ _ h3, List.find?_cons_of_pos _ (by simp [insertRow])]
            simp [insertRow]
          simp [resolveExisting, hsid, hurl, hrow]
  | some eid =>
    simp only [upsert_item, hres]
    cases hsid : truthy i.source_item_id with
    | true =>
      cases h1 : findBySourceItemId i.source (i.source_item_id.getD "") db with
      | some x =>
        have hx : x = eid := by
          rw [show resolveExisting i db = some x by simp [resolveExisting, hsid, h1]] at hres
          exact Option.some.inj hres
        subst hx
        have hrow := findBySid_of_found i now x db hnd hsid h1
        simp only [beq_iff_eq] at hrow
        simp [resolveExisting, hsid, hrow]
      | none =>
        rcases findBySid_upd_none i now eid i.source (i.source_item_id.getD "") db h1 with
          he1 | he1
        case _ =>
          cases hurl : truthy i.url with
          | true =>
            cases h2 : findByUrl (i.url.getD "") db with
            | some x =>
              have hx : x = eid := by
                rw [show resolveExisting i db = some x by
                  simp [resolveExisting, hsid, h1, hurl, h2]] at hres
                exact Option.some.inj hres
              subst hx
              have hrow := findByUrl_of_found i now x db hnd hurl h2
              simp only [beq_iff_eq] at hrow he1
              simp [resolveExisting, hsid, hurl, he1, hrow]
            | none =>
              cases h3 : findByContentHash i.content_hash db with
              | some x =>
                have hx : x = eid := by
                  rw [show resolveExisting i db = some x by
                    simp [resolveExisting, hsid, h1, hurl, h2, h3]] at hres
                  exact Option.some.inj hres
                subst hx
                rcases findByUrl_upd_none i now x (i.url.getD "") db h2 with he2 | he2
                · have hrow := findByHash_of_found i now x db hnd h3
                  simp only [beq_iff_eq] at hrow he1 he2
                  simp [resolveExisting, hsid, hurl, he1, he2, hrow]
                · simp only [beq_iff_eq] at he1 he2
                  simp [resolveExisting, hsid, hurl, he1, he2]
              | none =>
                exact absurd hres (by simp [resolveExisting, hsid, h1, hurl, h2, h3])
          | false =>
            cases h3 : findByContentHash i.content_hash db with
            | some x =>
              have hx : x = eid := by
                rw [show resolveExisting i db = some x by
                  simp [resolveExisting, hsid, h1, hurl, h3]] at hres
                exact Option.some.inj hres
              subst hx
              have hrow := findByHash_of_found i now x db hnd h3
              simp only [beq_iff_eq] at hrow he1
              simp [resolveExisting, hsid, hurl, he1, hrow]
            | none =>
              exact absurd hres (by simp [resolveExisting, hsid, h1, hurl, h3])
        case _ =>
          simp only [beq_iff_eq] at he1
          simp [resolveExisting, hsid, he1]
    | false =>
      cases hurl : truthy i.url with
      | true =>
        cases h2 : findByUrl (i.url.getD "") db with
        | some x =>
          have hx : x = eid := by
            rw [show resolveExisting i db = some x by
              simp [resolveExisting, hsid, hurl, h2]] at hres
            exact Option.some.inj hres
          subst hx
          have hrow := findByUrl_of_found i now x db hnd hurl h2
          simp only [beq_iff_eq] at hrow
          simp [resolveExisting, hsid, hurl, hrow]
        | none =>
          cases h3 : findByContentHash i.content_hash db with
          | some x =>
            have hx : x = eid := by
              rw [show resolveExisting i db = some x by
                simp [resolveExisting, hsid, hurl, h2, h3]] at hres
              exact Option.some.inj hres
            subst hx
            rcases findByUrl_upd_none i now x (i.url.getD "") db h2 with he2 | he2
            · have hrow := findByHash_of_found i now x db hnd h3
              simp only [beq_iff_eq] at hrow he2
              simp [resolveExisting, hsid, hurl, he2, hrow]
            · simp only [beq_iff_eq] at he2
              simp [resolveExisting, hsid, hurl, he2]
          | none =>
            exact absurd hres (by simp [resolveExisting, hsid, hurl, h2, h3])
      | false =>
        cases h3 : findByContentHash i.content_hash db with
        | some x =>
          have hx : x = eid := by
            rw [show resolveExisting i db = some x by
              simp [resolveExisting, hsid, hurl, h3]] at hres
            exact Option.some.inj hres
          subst hx
          have hrow := findByHash_of_found i now x db hnd h3
          simp only [beq_iff_eq] at hrow
          simp [resolveExisting, hsid, hurl, hrow]
        | none =>
          exact absurd hres (by simp [resolveExisting, hsid, hurl, h3])

/-- The identity relation of the claim, between an incoming item `j` and the
stored item `i`: same (source, source-native id) when the stored id is
present, or same URL when both are present, or same content hash when the
incoming item carries neither a truthy id nor a truthy URL. -/
def sameIdentity (i j : Item) : Bool :=
  (truthy i.source_item_id && (j.source == i.source)
    && (j.source_item_id == i.source_item_id))
  || (truthy i.url && truthy j.url && (j.url == i.url))
  || (!truthy j.source_item_id && !truthy j.url && (j.content_hash == i.content_hash))

lemma resolve_singleton (i j : Item) (now : String) (hij : sameIdentity i j = true) :
    resolveExisting j [insertRow 1 i now] = some 1 := by
  simp only [sameIdentity, Bool.or_eq_true, Bool.and_eq_true, beq_iff_eq,
    Bool.not_eq_true'] at hij
  rcases hij with (⟨⟨h1, h2⟩, h3⟩ | ⟨⟨h1, h2⟩, h3⟩) | ⟨⟨h1, h2⟩, h3⟩
  · -- same (source, source-native id)
    have hjs : truthy j.source_item_id = true := by rw [h3]; exact h1
    obtain ⟨s, hs⟩ : ∃ s, j.source_item_id = some s := by
      cases hv : j.source_item_id
      · rw [hv] at hjs; simp [truthy] at hjs
      · exact ⟨_, rfl⟩
    have hsi : i.source_item_id = some s := by rw [← h3]; exact hs
    have hfind : findBySourceItemId j.source (j.source_item_id.getD "")
        [insertRow 1 i now] = some 1 := by
      unfold findBySourceItemId
      rw [List.find?_cons_of_pos _ (by simp [insertRow, h2, hs, hsi])]
      simp [insertRow]
    simp [resolveExisting, hjs, hfind]
  · -- same URL
    obtain ⟨u, hu⟩ : ∃ u, j.url = some u := by
      cases hv : j.url
      · rw [hv] at h2; simp [truthy] at h2
      · exact ⟨_, rfl⟩
    have hui : i.url = some u := by rw [← h3]; exact hu
    have hfindu : findByUrl (j.url.getD "") [insertRow 1 i now] = some 1 := by
      unfold findByUrl
      rw [List.find?_cons_of_pos _ (by simp [insertRow, hu, hui])]
      simp [insertRow]
    cases hjs : truthy j.source_item_id with
    | false => simp [resolveExisting, hjs, h2, hfindu]
    | true =>
      cases hf : findBySourceItemId j.source (j.source_item_id.getD "")
          [insertRow 1 i now] with
      | some x =>
        have hx : x = 1 := by
          unfold findBySourceItemId at hf
          cases hff : List.find? (fun r => r.source == j.source
              && r.source_item_id == some (j.source_item_id.getD ""))
              [insertRow 1 i now] with
          | none => rw [hff] at hf; simp at hf
          | some r =>
            rw [hff] at hf
            have hmem := List.mem_of_find?_eq_some hff
            simp only [List.mem_singleton] at hmem
            subst hmem
            simp [insertRow] at hf
            omega
        subst hx
        simp [resolveExisting, hjs, hf]
      | none => simp [resolveExisting, hjs, hf, h2, hfindu]
  · -- same content hash, neither id nor URL present on the incoming item
    have hfindh : findByContentHash j.content_hash [insertRow 1 i now] = some 1 := by
      unfold findByContentHash
      rw [List.find?_cons_of_pos _ (by simp [insertRow, h3])]
      simp [insertRow]
    simp [resolveExisting, h1, h2, hfindh]

/-- C1: upserting an item into an empty store inserts one row with
`is_new = true`; upserting any item sharing its identity (same
(source, source-native id), same URL, or same content hash with neither id
nor URL present) returns the same persisted id with `is_new = false` and the
store still holds one row; and, from any store with distinct row ids,
re-upserting the same item right after upserting it returns the same id with
`is_new = false` and an unchanged row count — `is_new` is true exactly once
per identity. -/
theorem upsert_item_single_row_per_identity (i j : Item) (now₁ now₂ now₃ : String)
    (hij : sameIdentity i j = true) :
    (upsert_item i now₁ []).1 = 1
    ∧ (upsert_item i now₁ []).2.1 = true
    ∧ (upsert_item i now₁ []).2.2.length = 1
    ∧ (upsert_item j now₂ (upsert_item i now₁ []).2.2).1 = (upsert_item i now₁ []).1
    ∧ (upsert_item j now₂ (upsert_item i now₁ []).2.2).2.1 = false
    ∧ (upsert_item j now₂ (upsert_item i now₁ []).2.2).2.2.length = 1
    ∧ (∀ db : List ItemRow, db.Pairwise (fun a b => a.id ≠ b.id) →
        (upsert_item i now₃ (upsert_item i now₁ db).2.2).1 = (upsert_item i now₁ db).1
        ∧ (upsert_item i now₃ (upsert_item i now₁ db).2.2).2.1 = false
        ∧ (upsert_item i now₃ (upsert_item i now₁ db).2.2).2.2.length
          = (upsert_item i now₁ db).2.2.length) := by
  have h0 : upsert_item i now₁ [] = (1, true, [insertRow 1 i now₁]) := by
    simp [upsert_item, resolveExisting_nil, nextItemId]
  have h1 : resolveExisting j [insertRow 1 i now₁] = some 1 :=
    resolve_singleton i j now₁ hij
  refine ⟨by simp [h0], by simp [h0], by simp [h0], ?_, ?_, ?_, ?_⟩
  · rw [h0]; simp [upsert_item, h1]
  · rw [h0]; simp [upsert_item, h1]
  · rw [h0]; simp [upsert_item, h1]
  · intro db hnd
    have h := resolve_after_upsert i now₁ db hnd
    rcases hu : upsert_item i now₁ db with ⟨id₁, b₁, db₁⟩
    rw [hu] at h
    simp only [] at h
    refine ⟨?_, ?_, ?_⟩ <;> simp [upsert_item, h]

/-- Stored item for the C1 witness. -/
def c1ItemA : Item :=
  ⟨none, "kkj", some "K1", some "http://a", "T", "O", none, none, none, none,
   none, none, "h1", none, none⟩

/-- Re-upserted item for the C1 witness: same (source, source-native id). -/
def c1ItemB : Item :=
  ⟨none, "kkj", some "K1", some "http://b", "T2", "O2", none, none, none, none,
   none, none, "h2", none, none⟩

/-- Witness for `upsert_item_single_row_per_identity`. -/
theorem upsert_item_single_row_per_identity_witness :
    sameIdentity c1ItemA c1ItemB = true
    ∧ ((upsert_item c1ItemA "t1" []).1 = 1
    ∧ (upsert_item c1ItemA "t1" []).2.1 = true
    ∧ (upsert_item c1ItemA "t1" []).2.2.length = 1
    ∧ (upsert_item c1ItemB "t2" (upsert_item c1ItemA "t1" []).2.2).1
      = (upsert_item c1ItemA "t1" []).1
    ∧ (upsert_item c1ItemB "t2" (upsert_item c1ItemA "t1" []).2.2).2.1 = false
    ∧ (upsert_item c1ItemB "t2" (upsert_item c1ItemA "t1" []).2.2).2.2.length = 1
    ∧ (∀ db : List ItemRow, db.Pairwise (fun a b => a.id ≠ b.id) →
        (upsert_item c1ItemA "t3" (upsert_item c1ItemA "t1" db).2.2).1
          = (upsert_item c1ItemA "t1" db).1
        ∧ (upsert_item c1ItemA "t3" (upsert_item c1ItemA "t1" db).2.2).2.1 = false
        ∧ (upsert_item c1ItemA "t3" (upsert_item c1ItemA "t1" db).2.2).2.2.length
          = (upsert_item c1ItemA "t1" db).2.2.length)) :=
  ⟨by decide, upsert_item_single_row_per_identity c1ItemA c1ItemB "t1" "t2" "t3" (by decide)⟩

/-! ## Saved-search runner lemmas (C3, C6, C9) -/

/-- The identity-bearing part of a hit row: which run recorded which item. -/
def hitKey (h : HitRow) : Nat × Option Nat := (h.saved_search_run_id, h.item_id)

/-- The notification row `_send_notifications` inserts for one recipient. -/
def sendNotifRow (cfg : NotifyConfig) (deliver : String → Option String)
    (run_id saved_search_id : Nat) (now : String) (r : String) : NotificationRow :=
  ⟨run_id, cfg.channel, r, if (deliver r).isNone then "ok" else "failed", 1, now,
   deliver r, generate_dedupe_key saved_search_id run_id cfg.channel r⟩

lemma le_foldr_max (l : List RunRow) (r : RunRow) (hr : r ∈ l) :
    r.id ≤ l.foldr (fun rr m => max rr.id m) 0 := by
  induction l with
  | nil => simp at hr
  | cons a rest ih =>
    rcases List.mem_cons.mp hr with h | h
    · subst h; simp only [List.foldr_cons]; omega
    · have := ih h; simp only [List.foldr_cons]; omega

lemma runId_lt_next (db : SearchDB) (r : RunRow) (hr : r ∈ db.runs) :
    r.id < nextRunId db :=
  Nat.lt_succ_of_le (le_foldr_max db.runs r hr)

/-- Creating a fresh run row does not change the previous-hit id set of any
saved search, provided existing hits reference existing runs (the fresh run id
is larger than every existing run id, so no old hit joins to it). -/
lemma prev_ids_create_run (db : SearchDB) (ssid ssid2 : Nat) (now : String)
    (hfk : ∀ h ∈ db.hits, ∃ r ∈ db.runs, r.id = h.saved_search_run_id) :
    get_previous_hit_item_ids (create_saved_search_run db ssid2 now) ssid
      = get_previous_hit_item_ids db ssid := by
  unfold get_previous_hit_item_ids create_saved_search_run
  simp only
  apply List.filterMap_congr
  intro h hmem
  cases hid : h.item_id with
  | none => rfl
  | some iid =>
    obtain ⟨r, hr, hrid⟩ := hfk h hmem
    have hlt := runId_lt_next db r hr
    have hne : nextRunId db ≠ h.saved_search_run_id := by omega
    simp only [List.any_append, List.any_cons, List.any_nil]
    have : ((⟨nextRunId db, ssid2, now, 0, "running", none, none, none, none⟩ : RunRow).id
        == h.saved_search_run_id) = false := by
      simp [hne]
    simp [this]

/-- The hit rows after the per-item `create_saved_search_hit` loop of
`SavedSearchRunner.run`. -/
lemma hits_foldl_create (rid : Nat) (now : String) (items : List Item) (db : SearchDB) :
    (items.foldl (fun db it =>
        create_saved_search_hit db rid (it.id.getD 0) it.content_hash now) db)
    = { db with hits :=
        db.hits ++ items.map (fun it => ⟨rid, some (it.id.getD 0), it.content_hash, now, none⟩) } := by
  induction items generalizing db with
  | nil => simp
  | cons it rest ih =>
    simp only [List.foldl_cons, List.map_cons]
    rw [ih]
    simp [create_saved_search_hit]

/-- The per-recipient fold of `_send_notifications` with `dry_run = false`:
successful recipients are appended to `notified_channels`, raised errors to
`errors`, and one notification row per recipient is inserted, in order. -/
lemma notify_foldl_spec (cfg : NotifyConfig) (deliver : String → Option String)
    (run_id saved_search_id : Nat) (now : String) (rs : List String) :
    ∀ ns es db,
      rs.foldl (notifyStep cfg deliver run_id saved_search_id false now) (ns, es, db)
      = (ns ++ (rs.filter (fun r => (deliver r).isNone)).map (fun r => cfg.channel ++ ":" ++ r),
         es ++ rs.filterMap deliver,
         { db with notifications := db.notifications
             ++ rs.map (sendNotifRow cfg deliver run_id saved_search_id now) }) := by
  induction rs with
  | nil => intro ns es db; simp
  | cons r rest ih =>
    intro ns es db
    simp only [List.foldl_cons, List.filter_cons, List.filterMap_cons, List.map_cons]
    cases hd : deliver r with
    | none =>
      rw [show notifyStep cfg deliver run_id saved_search_id false now (ns, es, db) r
          = (ns ++ [cfg.channel ++ ":" ++ r], es,
             { db with notifications := db.notifications
                 ++ [sendNotifRow cfg deliver run_id saved_search_id now r] }) from by
        simp [notifyStep, create_notification, sendNotifRow, hd]]
      rw [ih]
      simp [hd]
    | some e =>
      rw [show notifyStep cfg deliver run_id saved_search_id false now (ns, es, db) r
          = (ns, es ++ [e],
             { db with notifications := db.notifications
                 ++ [sendNotifRow cfg deliver run_id saved_search_id now r] }) from by
        simp [notifyStep, create_notification, sendNotifRow, hd]]
      rw [ih]
      simp [hd]

/-- One step of the per-recipient loop never touches hit or run rows. -/
lemma notifyStep_frame (cfg : NotifyConfig) (deliver : String → Option String)
    (run_id saved_search_id : Nat) (dry_run : Bool) (now : String)
    (st : List String × List String × SearchDB) (r : String) :
    (notifyStep cfg deliver run_id saved_search_id dry_run now st r).2.2.hits = st.2.2.hits
    ∧ (notifyStep cfg deliver run_id saved_search_id dry_run now st r).2.2.runs
      = st.2.2.runs := by
  cases dry_run <;> cases hd : deliver r <;> simp [notifyStep, create_notification, hd]

/-- The per-recipient fold never touches hit or run rows (for any dry-run
flag). -/
lemma notify_foldl_frame (cfg : NotifyConfig) (deliver : String → Option String)
    (run_id saved_search_id : Nat) (dry_run : Bool) (now : String) (rs : List String) :
    ∀ st : List String × List String × SearchDB,
      (rs.foldl (notifyStep cfg deliver run_id saved_search_id dry_run now) st).2.2.hits
        = st.2.2.hits
      ∧ (rs.foldl (notifyStep cfg deliver run_id saved_search_id dry_run now) st).2.2.runs
        = st.2.2.runs := by
  induction rs with
  | nil => intro st; exact ⟨rfl, rfl⟩
  | cons r rest ih =>
    intro st
    simp only [List.foldl_cons]
    obtain ⟨hh, hr⟩ :=
      notifyStep_frame cfg deliver run_id saved_search_id dry_run now st r
    exact ⟨((ih _).1).trans hh, ((ih _).2).trans hr⟩

/-- `mark_hits_notified` only sets timestamps: hit keys are unchanged. -/
lemma mark_hits_key (db : SearchDB) (rid : Nat) (now : String) :
    (mark_hits_notified db rid now).hits.map hitKey = db.hits.map hitKey := by
  unfold mark_hits_notified
  simp only [List.map_map]
  apply List.map_congr_left
  intro h hmem
  by_cases hr : h.saved_search_run_id = rid <;> simp [hitKey, hr]

/-- `send_notifications` preserves hit keys and run rows. -/
lemma send_notifications_frame (cfg : NotifyConfig) (deliver : String → Option String)
    (run_id saved_search_id : Nat) (items : List Item) (dry_run : Bool) (now : String)
    (db : SearchDB) :
    (send_notifications cfg deliver run_id saved_search_id items dry_run now db).2.hits.map hitKey
      = db.hits.map hitKey
    ∧ (send_notifications cfg deliver run_id saved_search_id items dry_run now db).2.runs
      = db.runs := by
  unfold send_notifications
  by_cases hre : cfg.recipients.isEmpty
  · simp [hre]
  · simp only [hre, if_false, Bool.false_eq_true]
    obtain ⟨hh, hr⟩ := notify_foldl_frame cfg deliver run_id saved_search_id dry_run now
      cfg.recipients ([], [], db)
    rcases hf : cfg.recipients.foldl
        (notifyStep cfg deliver run_id saved_search_id dry_run now) ([], [], db)
      with ⟨ns, es, db2⟩
    rw [hf] at hh hr
    simp only at hh hr
    cases hd : (!ns.isEmpty && !dry_run) with
    | true =>
      simp only [hd]
      constructor
      · by_cases hes : es.isEmpty = false <;>
          simp [hes, mark_hits_key, hh, hr]
      · by_cases hes : es.isEmpty = false <;>
          simp [hes, mark_hits_notified, hh, hr]
    | false =>
      simp only [hd]
      constructor
      · by_cases hes : es.isEmpty = false <;> simp [hes, hh, hr]
      · by_cases hes : es.isEmpty = false <;> simp [hes, hh, hr]

lemma length_filter_not {α : Type _} (p : α → Bool) (l : List α) :
    (l.filter (fun a => !p a)).length = l.length - (l.filter p).length := by
  induction l with
  | nil => simp
  | cons a rest ih =>
    have hle : (rest.filter p).length ≤ rest.length := List.length_filter_le p rest
    cases hp : p a <;> simp [List.filter_cons, hp, ih] <;> omega

/-! ## C6 — notification dispatch outcomes -/

/-- C6 (amended): for a non-dry dispatch, every configured recipient gets
exactly one notification record with `attempt_count = 1` (status `ok` on
success, `failed` with the error on a raised delivery error); the run-level
notify status is `some "ok"` when every recipient succeeds, `some "partial"`
when some succeed and some fail, and `some "failed"` when failures occur and
none succeed — but when NO recipients are configured the dispatcher returns
`none` (Python `None`) as the notify status together with an explanatory
error message, not `"failed"`; and with zero new items notification is
skipped entirely: no notify status is set and no notification row is
created. -/
theorem notify_dispatch_outcomes (c : NotifyConfig) (deliver : String → Option String)
    (run_id saved_search_id : Nat) (items : List Item) (now : String) (db : SearchDB) :
    (c.recipients = [] →
      send_notifications c deliver run_id saved_search_id items false now db
        = ((none, some "通知先が設定されていません", []), db))
    ∧ (send_notifications c deliver run_id saved_search_id items false now db).2.notifications
        = db.notifications
          ++ c.recipients.map (sendNotifRow c deliver run_id saved_search_id now)
    ∧ ((∀ r ∈ c.recipients, deliver r = none) →
        (send_notifications c deliver run_id saved_search_id items false now db).1.1
          = if c.recipients = [] then none else some "ok")
    ∧ ((∃ r ∈ c.recipients, deliver r = none) → (∃ r ∈ c.recipients, deliver r ≠ none) →
        (send_notifications c deliver run_id saved_search_id items false now db).1.1
          = some "partial")
    ∧ ((∀ r ∈ c.recipients, deliver r ≠ none) → c.recipients ≠ [] →
        (send_notifications c deliver run_id saved_search_id items false now db).1.1
          = some "failed")
    ∧ (∀ (ss : SavedSearchRec) (total : Nat) (notify dryRun : Bool),
        (runSavedSearch ss ([], total) (some c) deliver notify dryRun now db).1.notify_status
          = none
        ∧ (runSavedSearch ss ([], total) (some c) deliver notify dryRun now db).2.notifications
          = db.notifications) := by
  by_cases hre : c.recipients = []
  · refine ⟨fun _ => by simp [send_notifications, hre], ?_, ?_, ?_, ?_, ?_⟩
    · simp [send_notifications, hre]
    · intro _; simp [send_notifications, hre]
    · rintro ⟨r, hr, _⟩ _; rw [hre] at hr; simp at hr
    · intro _ hne; exact absurd hre hne
    · intro ss total notify dryRun
      constructor <;>
        cases dryRun <;>
        simp [runSavedSearch, send_notifications, hre, create_saved_search_run,
          update_saved_search_run]
  · have hne : c.recipients.isEmpty = false := List.isEmpty_eq_false.mpr hre
    have hfold := notify_foldl_spec c deliver run_id saved_search_id now c.recipients [] [] db
    refine ⟨fun h => absurd h hre, ?_, ?_, ?_, ?_, ?_⟩
    · simp only [send_notifications, hne, Bool.false_eq_true, if_false]
      rw [hfold]
      cases hN : ((c.recipients.filter (fun r => (deliver r).isNone)).map
          (fun r => c.channel ++ ":" ++ r)).isEmpty <;>
        cases hE : (c.recipients.filterMap deliver).isEmpty <;>
        simp [hN, hE, mark_hits_notified]
    · intro hall
      have hE : c.recipients.filterMap deliver = [] :=
        List.filterMap_eq_nil_iff.mpr hall
      simp only [send_notifications, hne, Bool.false_eq_true, if_false]
      rw [hfold]
      simp [hE, hre]
    · rintro ⟨r₀, hr₀, hd₀⟩ ⟨r₁, hr₁, hd₁⟩
      have hNne : (c.recipients.filter (fun r => (deliver r).isNone)) ≠ [] := by
        apply List.ne_nil_of_mem (a := r₀)
        exact List.mem_filter.mpr ⟨hr₀, by simp [hd₀]⟩
      obtain ⟨e₁, he₁⟩ : ∃ e, deliver r₁ = some e := by
        cases hv : deliver r₁
        · exact absurd hv hd₁
        · exact ⟨_, rfl⟩
      have hEne : c.recipients.filterMap deliver ≠ [] := by
        apply List.ne_nil_of_mem (a := e₁)
        exact List.mem_filterMap.mpr ⟨r₁, hr₁, he₁⟩
      simp only [send_notifications, hne, Bool.false_eq_true, if_false]
      rw [hfold]
      simp [hEne, hNne]
    · intro hall hne2
      have hN : (c.recipients.filter (fun r => (deliver r).isNone)) = [] := by
        rw [List.filter_eq_nil_iff]
        intro r hr
        have := hall r hr
        cases hv : deliver r
        · exact absurd hv this
        · simp [hv]
      obtain ⟨r₀, hr₀⟩ := List.exists_mem_of_ne_nil _ hre
      obtain ⟨e₀, he₀⟩ : ∃ e, deliver r₀ = some e := by
        cases hv : deliver r₀
        · exact absurd hv (hall r₀ hr₀)
        · exact ⟨_, rfl⟩
      have hEne : c.recipients.filterMap deliver ≠ [] := by
        apply List.ne_nil_of_mem (a := e₀)
        exact List.mem_filterMap.mpr ⟨r₀, hr₀, he₀⟩
      simp only [send_notifications, hne, Bool.false_eq_true, if_false]
      rw [hfold]
      simp [hEne, hN]
    · intro ss total notify dryRun
      constructor <;>
        cases dryRun <;>
        simp [runSavedSearch, create_saved_search_run, update_saved_search_run]

/-! ## C3 — the only-new diff -/

/-- Normal form of a non-dry `SavedSearchRunner.run`: the reported new count
and the recorded hit keys, for any notification configuration/outcome. -/
lemma runSavedSearch_spec (ss : SavedSearchRec) (items : List Item) (total : Nat)
    (cfg : Option NotifyConfig) (deliver : String → Option String) (notify : Bool)
    (now : String) (db : SearchDB) :
    (runSavedSearch ss (items, total) cfg deliver notify false now db).1.new
      = (if ss.only_new = true then
          items.filter (fun it => match it.id with
            | some i => !(get_previous_hit_item_ids
                (create_saved_search_run db ss.id now) ss.id).contains i
            | none => true)
        else items).length
    ∧ (runSavedSearch ss (items, total) cfg deliver notify false now db).2.hits.map hitKey
      = db.hits.map hitKey
        ++ (if ss.only_new = true then
            items.filter (fun it => match it.id with
              | some i => !(get_previous_hit_item_ids
                  (create_saved_search_run db ss.id now) ss.id).contains i
              | none => true)
          else items).map (fun it => (nextRunId db, some (it.id.getD 0))) := by
  cases honly : ss.only_new with
  | true =>
    simp only [runSavedSearch, honly, Bool.not_false, Bool.and_true, Bool.true_and,
      if_false, if_true, Bool.false_eq_true, ite_false, ite_true]
    constructor
    · cases cfg with
      | none => simp
      | some c =>
        cases hg : notify && !(items.filter (fun it => match it.id with
            | some i => !(get_previous_hit_item_ids
                (create_saved_search_run db ss.id now) ss.id).contains i
            | none => true)).isEmpty && c.enabled <;> simp [hg]
    · rw [hits_foldl_create]
      cases cfg with
      | none =>
        simp [update_saved_search_run, create_saved_search_run, hitKey,
          List.map_map, Function.comp]
      | some c =>
        by_cases hg : (notify && !(items.filter (fun it => match it.id with
              | some i => !(get_previous_hit_item_ids
                  (create_saved_search_run db ss.id now) ss.id).contains i
              | none => true)).isEmpty && c.enabled) = true
        · simp only [hg, if_true]
          simp only [update_saved_search_run]
          rw [(send_notifications_frame c deliver (nextRunId db) ss.id _ false now _).1]
          simp [create_saved_search_run, hitKey, List.map_map, Function.comp]
        · simp only [hg, if_false, Bool.false_eq_true]
          simp [update_saved_search_run, create_saved_search_run, hitKey,
            List.map_map, Function.comp]
  | false =>
    simp only [runSavedSearch, honly, Bool.false_and, if_false, Bool.false_eq_true,
      ite_false]
    constructor
    · cases cfg with
      | none => simp
      | some c =>
        cases hg : notify && !items.isEmpty && c.enabled <;> simp [hg]
    · rw [hits_foldl_create]
      cases cfg with
      | none =>
        simp [update_saved_search_run, create_saved_search_run, hitKey,
          List.map_map, Function.comp]
      | some c =>
        by_cases hg : (notify && !items.isEmpty && c.enabled) = true
        · simp only [hg, if_true]
          simp only [update_saved_search_run]
          rw [(send_notifications_frame c deliver (nextRunId db) ss.id _ false now _).1]
          simp [create_saved_search_run, hitKey, List.map_map, Function.comp]
        · simp only [hg, if_false, Bool.false_eq_true]
          simp [update_saved_search_run, create_saved_search_run, hitKey,
            List.map_map, Function.comp]

/-- C3: for a non-dry run of a saved search with `only_new` set, the items
reported and recorded as new are exactly the current search results minus the
item ids previously recorded as hits for that saved search (across all prior
runs): the reported count is the filtered count — `|items| - k` when `k` of
them already appear in prior hits — the recorded hits are the filtered items
appended under the fresh run id, and an item id is recorded under the new run
iff some current result carries it and it is not a previous hit; with
`only_new` false, all current results are treated as new. -/
theorem saved_search_only_new_diff (ss : SavedSearchRec) (items : List Item) (total k : Nat)
    (cfg : Option NotifyConfig) (deliver : String → Option String) (notify : Bool)
    (now : String) (db : SearchDB)
    (hfk : ∀ h ∈ db.hits, ∃ r ∈ db.runs, r.id = h.saved_search_run_id)
    (hids : ∀ it ∈ items, it.id.isSome = true)
    (hk : (items.filter (fun it =>
        (get_previous_hit_item_ids db ss.id).contains (it.id.getD 0))).length = k)
    (hnew : ss.only_new = true) :
    (runSavedSearch ss (items, total) cfg deliver notify false now db).1.new
      = (items.filter (fun it =>
          !(get_previous_hit_item_ids db ss.id).contains (it.id.getD 0))).length
    ∧ (runSavedSearch ss (items, total) cfg deliver notify false now db).1.new
      = items.length - k
    ∧ (runSavedSearch ss (items, total) cfg deliver notify false now db).2.hits.map hitKey
      = db.hits.map hitKey
        ++ (items.filter (fun it =>
            !(get_previous_hit_item_ids db ss.id).contains (it.id.getD 0))).map
          (fun it => (nextRunId db, some (it.id.getD 0)))
    ∧ (∀ x : Nat,
        (nextRunId db, some x) ∈
          (runSavedSearch ss (items, total) cfg deliver notify false now db).2.hits.map hitKey
        ↔ ∃ it ∈ items, it.id = some x ∧ x ∉ get_previous_hit_item_ids db ss.id)
    ∧ (∀ ss2 : SavedSearchRec, ss2.only_new = false →
        (runSavedSearch ss2 (items, total) cfg deliver notify false now db).1.new
          = items.length) := by
  obtain ⟨hnewcount, hhits⟩ := runSavedSearch_spec ss items total cfg deliver notify now db
  have hprev := prev_ids_create_run db ss.id ss.id now hfk
  have hfilter : items.filter (fun it => match it.id with
      | some i => !(get_previous_hit_item_ids
          (create_saved_search_run db ss.id now) ss.id).contains i
      | none => true)
    = items.filter (fun it =>
        !(get_previous_hit_item_ids db ss.id).contains (it.id.getD 0)) := by
    apply List.filter_congr
    intro it hit
    have hso := hids it hit
    cases hidv : it.id with
    | none => rw [hidv] at hso; simp at hso
    | some i => simp [hprev, hidv]
  rw [if_pos hnew, hfilter] at hnewcount hhits
  have hcount2 : (items.filter (fun it =>
      !(get_previous_hit_item_ids db ss.id).contains (it.id.getD 0))).length
      = items.length - k := by
    rw [← hk]
    exact length_filter_not
      (fun it => (get_previous_hit_item_ids db ss.id).contains (it.id.getD 0)) items
  refine ⟨hnewcount, hnewcount.trans hcount2, hhits, ?_, ?_⟩
  · intro x
    constructor
    · intro hmem
      rw [hhits] at hmem
      rcases List.mem_append.mp hmem with hL | hR
      · obtain ⟨h0, hh0, hkey⟩ := List.mem_map.mp hL
        obtain ⟨r, hr, hrid⟩ := hfk h0 hh0
        have hlt := runId_lt_next db r hr
        have : h0.saved_search_run_id = nextRunId db := by
          have := congrArg Prod.fst hkey
          simpa [hitKey] using this
        omega
      · obtain ⟨it, hitf, hkey⟩ := List.mem_map.mp hR
        obtain ⟨hitm, hcond⟩ := List.mem_filter.mp hitf
        have hso := hids it hitm
        obtain ⟨i, hi⟩ : ∃ i, it.id = some i := by
          cases hv : it.id
          · rw [hv] at hso; simp at hso
          · exact ⟨_, rfl⟩
        have hix : i = x := by
          have := congrArg Prod.snd hkey
          simp only at this
          rw [hi] at this
          simpa using this
        refine ⟨it, hitm, by rw [hi, hix], ?_⟩
        simp only [hi, Option.getD_some, Bool.not_eq_true', hix] at hcond
        intro hxprev
        have hx2 : (get_previous_hit_item_ids db ss.id).contains x = true :=
          List.elem_iff.mpr hxprev
        rw [hx2] at hcond
        simp at hcond
    · rintro ⟨it, hitm, hid, hxnot⟩
      rw [hhits]
      apply List.mem_append.mpr
      right
      apply List.mem_map.mpr
      refine ⟨it, ?_, ?_⟩
      · apply List.mem_filter.mpr
        refine ⟨hitm, ?_⟩
        have hx2 : (get_previous_hit_item_ids db ss.id).contains x = false := by
          cases hc : (get_previous_hit_item_ids db ss.id).contains x
          · rfl
          · exact absurd (List.elem_iff.mp hc) hxnot
        rw [hid]
        simp only [Option.getD_some, Bool.not_eq_true']
        exact hx2
      · simp [hid]
  · intro ss2 h2
    obtain ⟨hn2, _⟩ := runSavedSearch_spec ss2 items total cfg deliver notify now db
    rw [if_neg (by simp [h2])] at hn2
    exact hn2

/-- Saved search, store state and current results for the C3/C9 witnesses:
one prior (even failed) run of saved search 5 recorded hits on item ids 1-6;
the current search returns items with ids 1-10. -/
def c3DB : SearchDB :=
  ⟨[⟨1, 5, "t0", 6, "failed", some "boom", none, none, none⟩],
   (List.range 6).map (fun n => ⟨1, some (n + 1), "h", "t0", none⟩), []⟩

def c3Items : List Item :=
  (List.range 10).map (fun n =>
    ⟨some (n + 1), "kkj", none, none, "T", "O", none, none, none, none, none, none,
     "h", none, none⟩)

/-- Witness for `saved_search_only_new_diff`: 10 current matches, 6 ids in
prior hits, exactly 4 new. -/
theorem saved_search_only_new_diff_witness :
    ((∀ h ∈ c3DB.hits, ∃ r ∈ c3DB.runs, r.id = h.saved_search_run_id)
     ∧ (∀ it ∈ c3Items, it.id.isSome = true)
     ∧ (c3Items.filter (fun it =>
          (get_previous_hit_item_ids c3DB 5).contains (it.id.getD 0))).length = 6
     ∧ (⟨5, "s", true⟩ : SavedSearchRec).only_new = true)
    ∧ ((runSavedSearch ⟨5, "s", true⟩ (c3Items, 10) none (fun _ => none) false false "t1"
          c3DB).1.new
        = (c3Items.filter (fun it =>
            !(get_previous_hit_item_ids c3DB 5).contains (it.id.getD 0))).length
    ∧ (runSavedSearch ⟨5, "s", true⟩ (c3Items, 10) none (fun _ => none) false false "t1"
          c3DB).1.new = c3Items.length - 6
    ∧ (runSavedSearch ⟨5, "s", true⟩ (c3Items, 10) none (fun _ => none) false false "t1"
          c3DB).2.hits.map hitKey
      = c3DB.hits.map hitKey
        ++ (c3Items.filter (fun it =>
            !(get_previous_hit_item_ids c3DB 5).contains (it.id.getD 0))).map
          (fun it => (nextRunId c3DB, some (it.id.getD 0)))
    ∧ (∀ x : Nat,
        (nextRunId c3DB, some x) ∈
          (runSavedSearch ⟨5, "s", true⟩ (c3Items, 10) none (fun _ => none) false false "t1"
            c3DB).2.hits.map hitKey
        ↔ ∃ it ∈ c3Items, it.id = some x ∧ x ∉ get_previous_hit_item_ids c3DB 5)
    ∧ (∀ ss2 : SavedSearchRec, ss2.only_new = false →
        (runSavedSearch ss2 (c3Items, 10) none (fun _ => none) false false "t1" c3DB).1.new
          = c3Items.length)) :=
  ⟨⟨by decide, by decide, by decide, by decide⟩,
   saved_search_only_new_diff ⟨5, "s", true⟩ c3Items 10 6 none (fun _ => none) false "t1"
     c3DB (by decide) (by decide) (by decide) (by decide)⟩

/-! ## C9 — hits of failed runs still consume novelty; C6 counterexample -/

/-- C9: once an item id is recorded by `create_saved_search_hit` under any run
of a saved search, it is in `get_previous_hit_item_ids` forever — the query
joins hits to runs of the saved search with NO condition on run status (the
witness uses a run finalized as `failed`), and changing every run's status
arbitrarily leaves the set unchanged; consequently a later only-new run never
records that item id again. -/
theorem failed_run_hits_consume_novelty (db : SearchDB) (r : RunRow) (h : HitRow)
    (x ssid : Nat)
    (hr : r ∈ db.runs) (hss : r.saved_search_id = ssid) (hh : h ∈ db.hits)
    (hrun : h.saved_search_run_id = r.id) (hx : h.item_id = some x)
    (hfk : ∀ h2 ∈ db.hits, ∃ r2 ∈ db.runs, r2.id = h2.saved_search_run_id) :
    x ∈ get_previous_hit_item_ids db ssid
    ∧ (∀ f : String → String,
        get_previous_hit_item_ids
          { db with runs := db.runs.map (fun rr => { rr with status := f rr.status }) } ssid
        = get_previous_hit_item_ids db ssid)
    ∧ (∀ (ss : SavedSearchRec) (items : List Item) (total : Nat)
        (cfg : Option NotifyConfig) (deliver : String → Option String)
        (notify : Bool) (now : String),
        ss.id = ssid → ss.only_new = true → (∀ it ∈ items, it.id.isSome = true) →
        ∀ h2 ∈ (runSavedSearch ss (items, total) cfg deliver notify false now db).2.hits,
          h2.saved_search_run_id = nextRunId db → h2.item_id ≠ some x) := by
  have hxprev : x ∈ get_previous_hit_item_ids db ssid := by
    unfold get_previous_hit_item_ids
    apply List.mem_filterMap.mpr
    refine ⟨h, hh, ?_⟩
    rw [hx]
    have hany : db.runs.any (fun rr =>
        rr.id == h.saved_search_run_id && rr.saved_search_id == ssid) = true :=
      List.any_eq_true.mpr ⟨r, hr, by simp [hrun, hss]⟩
    simp [hany]
  refine ⟨hxprev, ?_, ?_⟩
  · intro f
    unfold get_previous_hit_item_ids
    apply List.filterMap_congr
    intro h2 hmem
    cases h2.item_id with
    | none => rfl
    | some iid => simp [List.any_map, Function.comp]
  · intro ss items total cfg deliver notify now hssid honly hids2 h2 hmem2 hrid2 hcontra
    obtain ⟨_, hhits⟩ := runSavedSearch_spec ss items total cfg deliver notify now db
    rw [if_pos honly] at hhits
    have hprev := prev_ids_create_run db ss.id ss.id now hfk
    have hfilter : items.filter (fun it => match it.id with
        | some i => !(get_previous_hit_item_ids
            (create_saved_search_run db ss.id now) ss.id).contains i
        | none => true)
      = items.filter (fun it =>
          !(get_previous_hit_item_ids db ss.id).contains (it.id.getD 0)) := by
      apply List.filter_congr
      intro it hit
      have hso := hids2 it hit
      cases hidv : it.id with
      | none => rw [hidv] at hso; simp at hso
      | some i => simp [hprev, hidv]
    rw [hfilter] at hhits
    have hkeymem : hitKey h2 ∈ (runSavedSearch ss (items, total) cfg deliver notify
        false now db).2.hits.map hitKey := List.mem_map_of_mem _ hmem2
    rw [hhits] at hkeymem
    rcases List.mem_append.mp hkeymem with hL | hR
    · obtain ⟨h0, hh0, hkey⟩ := List.mem_map.mp hL
      obtain ⟨r2, hr2, hrid3⟩ := hfk h0 hh0
      have hlt := runId_lt_next db r2 hr2
      have hfst : h0.saved_search_run_id = h2.saved_search_run_id := by
        have := congrArg Prod.fst hkey
        simpa [hitKey] using this
      omega
    · obtain ⟨it, hitf, hkey⟩ := List.mem_map.mp hR
      obtain ⟨hitm, hcond⟩ := List.mem_filter.mp hitf
      have hso := hids2 it hitm
      obtain ⟨i, hi⟩ : ∃ i, it.id = some i := by
        cases hv : it.id
        · rw [hv] at hso; simp at hso
        · exact ⟨_, rfl⟩
      have hsnd : some (it.id.getD 0) = h2.item_id := by
        have := congrArg Prod.snd hkey
        simpa [hitKey] using this
      rw [hcontra] at hsnd
      rw [hi] at hsnd hcond
      simp only [Option.getD_some] at hsnd
      have hix : i = x := by simpa using hsnd
      simp only [Option.getD_some, Bool.not_eq_true', hix] at hcond
      rw [hssid] at hcond
      have hx2 : (get_previous_hit_item_ids db ssid).contains x = true :=
        List.elem_iff.mpr hxprev
      rw [hx2] at hcond
      simp at hcond

/-- Witness for `failed_run_hits_consume_novelty`: the prior run of `c3DB` is
finalized `failed`, yet its hit on item 3 keeps item 3 out of every later
only-new run. -/
theorem failed_run_hits_consume_novelty_witness :
    ((⟨1, 5, "t0", 6, "failed", some "boom", none, none, none⟩ : RunRow) ∈ c3DB.runs
     ∧ (⟨1, 5, "t0", 6, "failed", some "boom", none, none, none⟩ : RunRow).saved_search_id = 5
     ∧ (⟨1, some 3, "h", "t0", none⟩ : HitRow) ∈ c3DB.hits
     ∧ (⟨1, some 3, "h", "t0", none⟩ : HitRow).saved_search_run_id
        = (⟨1, 5, "t0", 6, "failed", some "boom", none, none, none⟩ : RunRow).id
     ∧ (⟨1, some 3, "h", "t0", none⟩ : HitRow).item_id = some 3
     ∧ (∀ h2 ∈ c3DB.hits, ∃ r2 ∈ c3DB.runs, r2.id = h2.saved_search_run_id))
    ∧ ((3 : Nat) ∈ get_previous_hit_item_ids c3DB 5
    ∧ (∀ f : String → String,
        get_previous_hit_item_ids
          { c3DB with runs := c3DB.runs.map (fun rr => { rr with status := f rr.status }) } 5
        = get_previous_hit_item_ids c3DB 5)
    ∧ (∀ (ss : SavedSearchRec) (items : List Item) (total : Nat)
        (cfg : Option NotifyConfig) (deliver : String → Option String)
        (notify : Bool) (now : String),
        ss.id = 5 → ss.only_new = true → (∀ it ∈ items, it.id.isSome = true) →
        ∀ h2 ∈ (runSavedSearch ss (items, total) cfg deliver notify false now c3DB).2.hits,
          h2.saved_search_run_id = nextRunId c3DB → h2.item_id ≠ some 3)) :=
  ⟨⟨by decide, by decide, by decide, by decide, by decide, by decide⟩,
   failed_run_hits_consume_novelty c3DB
     ⟨1, 5, "t0", 6, "failed", some "boom", none, none, none⟩
     ⟨1, some 3, "h", "t0", none⟩ 3 5
     (by decide) (by decide) (by decide) (by decide) (by decide) (by decide)⟩

/-! ## C6 counterexample and scenario -/

def c6Item : Item :=
  ⟨some 1, "kkj", some "K", some "u", "T", "O", none, none, none, none, none, none,
   "h", none, none⟩

/-- An enabled notification configuration with no recipients. -/
def c6CfgEmpty : NotifyConfig := ⟨"slack", [], 100, true⟩

/-- C6 counterexample: a non-dry run with one new item and an enabled
notification configuration with zero recipients finalizes with run-level
notify status `none` (Python `None`), not `"failed"` as the claim states; the
run row stores `NULL` and the result carries no notify status. -/
theorem notify_no_recipients_counterexample :
    (runSavedSearch ⟨7, "s", false⟩ ([c6Item], 1) (some c6CfgEmpty) (fun _ => none)
        true false "t" ⟨[], [], []⟩).1.notify_status = none
    ∧ (runSavedSearch ⟨7, "s", false⟩ ([c6Item], 1) (some c6CfgEmpty) (fun _ => none)
        true false "t" ⟨[], [], []⟩).2.runs.map (fun r => r.notify_status) = [none]
    ∧ ((runSavedSearch ⟨7, "s", false⟩ ([c6Item], 1) (some c6CfgEmpty) (fun _ => none)
        true false "t" ⟨[], [], []⟩).1.notify_status == some "failed") = false
    ∧ (runSavedSearch ⟨7, "s", false⟩ ([c6Item], 1) (some c6CfgEmpty) (fun _ => none)
        true false "t" ⟨[], [], []⟩).1.new = 1 := by
  decide

/-- The spec's scenario: 3 recipients, recipient #2's delivery raises — run
notify status `partial`; #1 and #3 get `ok` records, #2 a `failed` record,
each with `attempt_count = 1`. -/
theorem notify_partial_scenario :
    (send_notifications ⟨"slack", ["r1", "r2", "r3"], 100, true⟩
        (fun r => if r == "r2" then some "transport error" else none)
        2 7 [c6Item] false "t" ⟨[], [], []⟩).1.1 = some "partial"
    ∧ (send_notifications ⟨"slack", ["r1", "r2", "r3"], 100, true⟩
        (fun r => if r == "r2" then some "transport error" else none)
        2 7 [c6Item] false "t" ⟨[], [], []⟩).2.notifications.map
          (fun n => (n.recipient, n.status, n.attempt_count))
      = [("r1", "ok", 1), ("r2", "failed", 1), ("r3", "ok", 1)] := by
  decide

end BidAggregator
